import Mathlib

/-!
# Verification development for the `mc` client

Shallow embedding of three source files:

* `sync-url.go`      — `prepareSyncURLs`, the multi-target sync plan generator;
* `cmd-session.go`   — `listSessions`, `clearSession`, `sessionExecute`, `runSessionCmd`;
* `pkg/s3/client.go` — `IsValidBucket`, `bucketURL`, `keyURL`.

Conventions.

* A Go channel that is written by one goroutine and then closed is represented by the
  list of values sent on it, in order.  A goroutine that dies of a run-time error before
  closing its channel is recorded by a flag.
* A nilable pointer `*T` is `Option T`; a Go `error` is `Option GoError`.
* Process-wide state touched by `cmd-session.go` (working directory, persisted session
  records, console output) is an explicit `World`; a call that may terminate the process
  (`console.Fatals`, `console.Fatalf`, `cli.ShowCommandHelpAndExit`) returns a `Run`.
* Go strings of `pkg/s3/client.go` are byte strings: lists of byte values.
-/

namespace Mc

/-! ## Shared data model -/

/-- Error values used by the embedded code.  `iodine.New(err, nil)` only attaches a stack
trace to `err`, so it is embedded as the identity on these values. -/
inductive GoError where
  | errInvalidArgument
  | errInvalidSessionID (id : String)
  | other (msg : String)
  deriving DecidableEq, Repr

/-- Modelled from the spec: `client.Content` is declared outside the given sources.  The
spec's data model lists "path/URL, type {file, directory}, size, last-modified". -/
structure Content where
  Name : String
  IsDir : Bool := false
  Size : Nat := 0
  Time : Nat := 0
  deriving DecidableEq, Repr

/-- Modelled from the spec: `cpURLs`, the copy pair `{SourceContent, TargetContent, Error}`
returned by the copy plan generators, is declared outside the given sources. -/
structure cpURLs where
  SourceContent : Option Content := none
  TargetContent : Option Content := none
  Error : Option GoError := none
  deriving DecidableEq, Repr

/-- The sync pair, `type syncURLs struct` of `sync-url.go`.  The default values are Go's
zero value of the struct. -/
structure syncURLs where
  SourceContent : Option Content := none
  TargetContent : List (Option Content) := []
  Error : Option GoError := none
  deriving DecidableEq, Repr

/-- Modelled from the spec: the topology tag returned by `guessCopyURLType`, declared
outside the given sources.  `sync-url.go` names three of its values; every other value is
`other`. -/
inductive copyURLsType where
  | cpURLsTypeA
  | cpURLsTypeB
  | cpURLsTypeC
  | other (tag : Nat)
  deriving DecidableEq, Repr

open copyURLsType

/-- What a reader of the channel returned by `prepareSyncURLs` observes: the values sent,
in order, and whether the producing goroutine died of a run-time error (index out of
range, nil dereference) instead of closing the channel. -/
structure chanTrace where
  sent : List syncURLs := []
  crashed : Bool := false
  deriving DecidableEq, Repr

/-! ## `sync-url.go` -/

/-- The loop of `case cpURLsTypeA` and of `case cpURLsTypeB`:
```go
var sURLs syncURLs
for i, targetURL := range targetURLs {
    cpURLs := prepareCopyURLsTypeX(sourceURL, targetURL)
    sURLs.SourceContent = cpURLs.SourceContent
    sURLs.TargetContent = append(sURLs.TargetContent, cpURLs.TargetContent)
}
```
`plan` is `prepareCopyURLsTypeA` or `prepareCopyURLsTypeB`.  The copy pair's `Error` is
not read. -/
def singleFileLoop (plan : String → String → cpURLs) (sourceURL : String) :
    List String → syncURLs → syncURLs
  | [], sURLs => sURLs
  | targetURL :: rest, sURLs =>
    let cp := plan sourceURL targetURL
    singleFileLoop plan sourceURL rest
      { sURLs with SourceContent := cp.SourceContent,
                   TargetContent := sURLs.TargetContent ++ [cp.TargetContent] }

/-- The inner loop of `case cpURLsTypeC`:
```go
for cpURLsCh := range cpURLsChs[1:] {
    cpURLs <- cpURLsCh
    sURLsList.TargetContent = append(sURLsList.TargetContent, cpURLs.TargetContent)
}
```
read as one receive `cpURLs = <-cpURLsCh` from each channel after the first.  The argument
is the unread remainder of each of those channels; the result is the remainders left and
the grown `TargetContent`.  A receive from a drained (closed) channel of `*cpURLs` yields
nil, and reading `TargetContent` through it is a nil dereference: `none`. -/
def recvRest : List (List cpURLs) → List (Option Content) →
    Option (List (List cpURLs) × List (Option Content))
  | [], acc => some ([], acc)
  | [] :: _, _ => none
  | (cp :: ch) :: chs, acc =>
    match recvRest chs (acc ++ [cp.TargetContent]) with
    | none => none
    | some (chs', acc') => some (ch :: chs', acc')

/-- The outer loop of `case cpURLsTypeC`:
```go
var sURLsList []syncURLs
for cpURLs = range cpURLsChs[0] {
    sURLsList.SourceContent = cpURLs.SourceContent
    for cpURLsCh := range cpURLsChs[1:] { ... }
    syncURLsCh <- sURLsList
}
```
`sURLsList` is used as one `syncURLs` value declared before the loop; it is threaded
through the iterations, as the code never resets it.  The first argument is the content
of `cpURLsChs[0]`, the second the contents of `cpURLsChs[1:]`. -/
def recursiveLoop : List cpURLs → List (List cpURLs) → syncURLs → chanTrace
  | [], _, _ => { sent := [], crashed := false }
  | cp :: ch0, chs, sURLsList =>
    match recvRest chs sURLsList.TargetContent with
    | none => { sent := [], crashed := true }
    | some (chs', tc) =>
      let sURLs : syncURLs :=
        { sURLsList with SourceContent := cp.SourceContent, TargetContent := tc }
      let r := recursiveLoop ch0 chs' sURLs
      { sent := sURLs :: r.sent, crashed := r.crashed }

/-- The function `prepareSyncURLs` of `sync-url.go`.

The collaborators `guessCopyURLType`, `prepareCopyURLsTypeA`, `prepareCopyURLsTypeB` and
`prepareCopyURLsTypeC` are defined outside the given sources and are parameters; the
channel returned by `prepareCopyURLsTypeC` is the list of copy pairs sent on it, so
`cpURLsChs[0]` is the list for `targetURLs[0]` and `cpURLsChs[1:]` the lists for the
other targets.  `targetURLs[0]` on an empty slice is an index-out-of-range run-time
error.  The `default` case sends a pair of which only `Error` is set. -/
def prepareSyncURLs
    (guessCopyURLType : List String → String → copyURLsType)
    (prepareCopyURLsTypeA prepareCopyURLsTypeB : String → String → cpURLs)
    (prepareCopyURLsTypeC : String → String → List cpURLs)
    (sourceURL : String) (targetURLs : List String) : chanTrace :=
  match targetURLs with
  | [] => { sent := [], crashed := true }
  | target0 :: rest =>
    match guessCopyURLType [sourceURL] target0 with
    | cpURLsTypeA =>
      { sent := [singleFileLoop prepareCopyURLsTypeA sourceURL (target0 :: rest) {}] }
    | cpURLsTypeB =>
      { sent := [singleFileLoop prepareCopyURLsTypeB sourceURL (target0 :: rest) {}] }
    | cpURLsTypeC =>
      let cpURLsChs0 := prepareCopyURLsTypeC sourceURL target0
      let cpURLsChsRest := rest.map (prepareCopyURLsTypeC sourceURL)
      recursiveLoop cpURLsChs0 cpURLsChsRest {}
    | other _ =>
      { sent := [{ Error := some GoError.errInvalidArgument }] }


/-! ### Sample collaborators

The classifier and the copy plan generators live outside the given sources.  The
definitions below follow the spec's description of them and serve as concrete inputs. -/

/-- Modelled from the spec: `isRecursive`, "trailing wildcard/ellipsis marker", for the
classifier that is missing from the given sources. -/
def isRecursive (url : String) : Bool :=
  "...".data.isSuffixOf url.data

/-- Modelled from the spec: `isDirectoryLike`, "trailing separator or known-directory",
for the classifier that is missing from the given sources; `knownDirs` lists the known
directories. -/
def isDirectoryLike (knownDirs : List String) (url : String) : Bool :=
  url.data.getLast? == some '/' || knownDirs.contains url

/-- Modelled from the spec: `guessCopyURLType` is missing from the given sources.  Rules
of the Locator Classifier: one non-recursive source and a non-directory target is type A
(file to file), one non-recursive source and a directory-like target is type B (file to
directory), one recursive source and a directory-like target is type C; a recursive
source with a plain-file target, and any other source set, is rejected. -/
def specGuessCopyURLType (knownDirs : List String) (sourceURLs : List String)
    (targetURL : String) : copyURLsType :=
  match sourceURLs with
  | [sourceURL] =>
    if isRecursive sourceURL then
      if isDirectoryLike knownDirs targetURL then cpURLsTypeC else other 0
    else
      if isDirectoryLike knownDirs targetURL then cpURLsTypeB else cpURLsTypeA
  | _ => other 0

/-- The last path component of a locator. -/
def baseName (url : String) : String :=
  String.mk (url.data.reverse.takeWhile (fun c => c != '/')).reverse

/-- Modelled from the spec: `prepareCopyURLsTypeA` is missing from the given sources.
A file-to-file plan is one copy pair from the source to the target; a locator listed in
`unresolvable` fails to resolve and gives a pair with `Error` set and zero-value
contents. -/
def specCopyURLsTypeA (unresolvable : List String) (sourceURL targetURL : String) : cpURLs :=
  if unresolvable.contains sourceURL || unresolvable.contains targetURL then
    { Error := some (GoError.other ("cannot resolve " ++ targetURL)) }
  else
    { SourceContent := some { Name := sourceURL },
      TargetContent := some { Name := targetURL } }

/-- Modelled from the spec: `prepareCopyURLsTypeB` is missing from the given sources.
A file-to-directory plan joins the target directory and the source's base name and is
then the file-to-file plan. -/
def specCopyURLsTypeB (unresolvable : List String) (sourceURL targetURL : String) : cpURLs :=
  if unresolvable.contains targetURL then
    { Error := some (GoError.other ("cannot resolve " ++ targetURL)) }
  else
    specCopyURLsTypeA unresolvable sourceURL (targetURL ++ baseName sourceURL)

/-- Modelled from the spec: `prepareCopyURLsTypeC` is missing from the given sources.
A recursive plan emits one copy pair per leaf object of the source tree, in listing
order, the target path being the target directory joined with the path relative to the
source root.  `leaves` is the listing of the source tree (relative paths); the source
root is `sourceURL` without its trailing `...` marker. -/
def specCopyURLsTypeC (leaves : List String) (sourceURL targetURL : String) : List cpURLs :=
  let root := String.mk (sourceURL.data.take (sourceURL.data.length - 3))
  leaves.map fun leaf =>
    { SourceContent := some { Name := root ++ leaf },
      TargetContent := some { Name := targetURL ++ leaf } }

/-! ## `cmd-session.go` -/

/-- Modelled from the spec: the session header type is declared outside the given
sources.  The spec's data model lists "FormatVersion, CommandType ("cp"|"sync"), RootPath
(working directory to restore on resume), CommandArguments, CreationTime";
`cmd-session.go` reads `Header.CommandType` and `Header.RootPath`. -/
structure sessionV2Header where
  Version : String := "1.1.0"
  CommandType : String
  RootPath : String
  CommandArgs : List String := []
  When : Nat := 0
  deriving DecidableEq, Repr

/-- Modelled from the spec: the session record type `sessionV2` is declared outside the
given sources; `cmd-session.go` reads `SessionID` and `Header`. -/
structure sessionV2 where
  SessionID : String
  Header : sessionV2Header
  deriving DecidableEq, Repr

/-- One call of the `console` and `cli` packages that writes to the terminal. -/
inductive ConsoleLine where
  /-- The call `console.Prints(s)`. -/
  | prints (s : sessionV2)
  /-- The call `console.Fatals(ErrorMessage{Message: message, Error: err})`. -/
  | fatals (message : String) (err : GoError)
  /-- The call `console.Fatalf(format, sid, err)`, `err` absent when the format has one verb. -/
  | fatalf (format : String) (sid : String) (err : Option GoError)
  /-- The help text printed by `cli.ShowCommandHelpAndExit(ctx, command, code)`. -/
  | help (command : String)
  /-- Any line written by the execution driver. -/
  | info (text : String)
  deriving DecidableEq, Repr

/-- The process-wide state `cmd-session.go` reads and writes.

* `cwd`: the process working directory; `dirs`: the directories that exist, each under
  its absolute name without `.`, `..` or empty components (there are no symbolic links).
* `sessionDir`: whether the session directory exists; `sessionDirCreatable`: whether
  creating it succeeds.
* `sessions`: the persisted session records, keyed by session id; the record is `none`
  when it cannot be decoded.
* `undeletable`: the ids of the sessions whose `Close` fails.
* `console`: what was written to the terminal, oldest first. -/
structure World where
  cwd : String
  dirs : List String
  sessionDir : Bool := true
  sessionDirCreatable : Bool := true
  sessions : List (String × Option sessionV2Header) := []
  undeletable : List String := []
  console : List ConsoleLine := []
  deriving DecidableEq, Repr

/-- The outcome of a call that may terminate the process: it returns to its caller, or
the process has exited with a status code. -/
inductive Run where
  | returned (w : World)
  | exited (code : Nat) (w : World)
  deriving DecidableEq, Repr

/-- Sequencing of process steps: nothing runs after the process has exited. -/
def Run.andThen (r : Run) (k : World → Run) : Run :=
  match r with
  | Run.returned w => k w
  | Run.exited code w => Run.exited code w

/-- The world a run ends in. -/
def Run.world : Run → World
  | Run.returned w => w
  | Run.exited _ w => w

/-- Modelled from the spec: `console.Fatals` belongs to a package outside the given
sources: "a fatal, user-visible error (process terminates with non-zero status)". -/
def console.Fatals (message : String) (err : GoError) (w : World) : Run :=
  Run.exited 1 { w with console := w.console ++ [ConsoleLine.fatals message err] }

/-- Modelled from the spec: `console.Fatalf` belongs to a package outside the given
sources; as `console.Fatals`, with a format string. -/
def console.Fatalf (format : String) (sid : String) (err : Option GoError) (w : World) : Run :=
  Run.exited 1 { w with console := w.console ++ [ConsoleLine.fatalf format sid err] }

/-- Modelled from the spec: `console.Prints` belongs to a package outside the given
sources; it prints a session header. -/
def console.Prints (s : sessionV2) (w : World) : World :=
  { w with console := w.console ++ [ConsoleLine.prints s] }

/-- The library call `cli.ShowCommandHelpAndExit(ctx, command, code)`: prints the help of
the command and exits with the code. -/
def cli.ShowCommandHelpAndExit (command : String) (code : Nat) (w : World) : Run :=
  Run.exited code { w with console := w.console ++ [ConsoleLine.help command] }

/-- Modelled from the spec: `getSessionIDs` is missing from the given sources;
"enumerates persisted records". -/
def getSessionIDs (w : World) : List String :=
  w.sessions.map Prod.fst

/-- Modelled from the spec: `isSession` is missing from the given sources; a session
exists when a record is persisted under its id.  Also stands for the success of
`os.Stat(getSessionFile(sid))`. -/
def isSession (sid : String) (w : World) : Bool :=
  (getSessionIDs w).contains sid

/-- Modelled from the spec: `loadSessionV2` is missing from the given sources; "fails
with `SessionNotFound` if no record exists for `id`, or `SessionCorrupt` if the persisted
record cannot be decoded". -/
def loadSessionV2 (sid : String) (w : World) : Except GoError sessionV2 :=
  match w.sessions.lookup sid with
  | none => Except.error (GoError.other "SessionNotFound")
  | some none => Except.error (GoError.other "SessionCorrupt")
  | some (some header) => Except.ok { SessionID := sid, Header := header }

/-- Modelled from the spec: `(*sessionV2).Close` is missing from the given sources;
"`close(record)`: deletes the persisted record".  It fails, leaving the record, for the
sessions listed in `undeletable`. -/
def sessionV2.Close (s : sessionV2) (w : World) : World × Option GoError :=
  if w.undeletable.contains s.SessionID then
    (w, some (GoError.other "CloseFailed"))
  else
    ({ w with sessions := w.sessions.filter (fun p => p.1 != s.SessionID) }, none)

/-- Modelled from the spec: `isSessionDirExists` is missing from the given sources;
"a single well-known directory, created on demand if absent". -/
def isSessionDirExists (w : World) : Bool :=
  w.sessionDir

/-- Modelled from the spec: `createSessionDir` is missing from the given sources;
"created on demand if absent". -/
def createSessionDir (w : World) : World × Option GoError :=
  if w.sessionDirCreatable then ({ w with sessionDir := true }, none)
  else (w, some (GoError.other "CreateSessionDirFailed"))

/-- The components of a path name: the strings between its slashes. -/
def splitSlash : List Char → List (List Char)
  | [] => [[]]
  | c :: cs =>
    if c = '/' then [] :: splitSlash cs
    else
      match splitSlash cs with
      | [] => [[c]]
      | comp :: rest => (c :: comp) :: rest

/-- One step of path-name resolution from the directory `stack` (its components below
the root): an empty component and `.` stay, `..` goes up (the root is its own parent),
any other component goes down. -/
def walkStep (stack : List (List Char)) (comp : List Char) : List (List Char) :=
  if comp = [] ∨ comp = ['.'] then stack
  else if comp = ['.', '.'] then stack.dropLast
  else stack ++ [comp]

/-- The absolute name of the directory whose components below the root are `stack`. -/
def renderPath (stack : List (List Char)) : String :=
  if stack = [] then "/" else String.mk (stack.flatMap fun comp => '/' :: comp)

/-- Path-name resolution as the operating system does it: the absolute name of what
`dir` names when the working directory is `cwd`; a `dir` that starts with a slash is
resolved from the root. -/
def resolvePath (cwd dir : String) : String :=
  let base := if dir.data.head? = some '/' then []
    else (splitSlash cwd.data).foldl walkStep []
  renderPath ((splitSlash dir.data).foldl walkStep base)

/-- A component that path-name resolution pushes as it is: it has no slash and is
neither empty nor `.` nor `..`. -/
def goodComponent (comp : List Char) : Prop :=
  '/' ∉ comp ∧ comp ≠ [] ∧ comp ≠ ['.'] ∧ comp ≠ ['.', '.']

/-- The absolute name of the working directory of a world. -/
def World.workingDir (w : World) : String :=
  resolvePath "/" w.cwd

/-- The library call `os.Getwd()`: the absolute name of the working directory, or an
error when that directory no longer exists. -/
def os.Getwd (w : World) : Except GoError String :=
  if w.dirs.contains w.workingDir then Except.ok w.workingDir
  else Except.error (GoError.other "getwd: no such file or directory")

/-- The library call `os.Chdir(dir)`: resolves `dir` from the working directory and makes
the directory it names the working directory; it fails, leaving the working directory,
when `dir` is empty or names no existing directory. -/
def os.Chdir (dir : String) (w : World) : World × Option GoError :=
  if dir ≠ "" ∧ w.dirs.contains (resolvePath w.cwd dir) then
    ({ w with cwd := resolvePath w.cwd dir }, none)
  else (w, some (GoError.other "chdir: no such file or directory"))

/-- The library predicate `unicode.IsSpace`, used by `strings.TrimSpace`. -/
def isSpace (c : Char) : Bool :=
  let n := c.toNat
  (9 ≤ n && n ≤ 13) || n == 0x20 || n == 0x85 || n == 0xA0 || n == 0x1680
    || (0x2000 ≤ n && n ≤ 0x200a) || n == 0x2028 || n == 0x2029 || n == 0x202f
    || n == 0x205f || n == 0x3000

/-- The library call `strings.TrimSpace`: removes leading and trailing white space. -/
def TrimSpace (s : String) : String :=
  String.mk ((s.data.dropWhile isSpace).reverse.dropWhile isSpace).reverse

/-- The method `ctx.Args().First()`: the first argument, or the empty string. -/
def Args.First (args : List String) : String :=
  args.headD ""

/-- The method `ctx.Args().Tail()`: the arguments after the first. -/
def Args.Tail (args : List String) : List String :=
  args.tail

/-- The loop of `listSessions` over the session ids still to visit. -/
def listSessionsLoop : List String → World → World × Option GoError
  | [], w => (w, none)
  | sid :: rest, w =>
    match loadSessionV2 sid w with
    | Except.error err => (w, some err)
    | Except.ok s => listSessionsLoop rest (console.Prints s w)

/-- The function `listSessions` of `cmd-session.go`. -/
def listSessions (w : World) : World × Option GoError :=
  listSessionsLoop (getSessionIDs w) w

/-- The loop of the `sid == "all"` branch of `clearSession` over the session ids still to
visit:
```go
session, err := loadSessionV2(sid)
if err != nil {
    console.Fatalf("Unable to load session ‘%s’, %s", sid, iodine.New(err, nil))
}
session.Close()
```
The value returned by `Close` is discarded. -/
def clearAllLoop : List String → World → Run
  | [], w => Run.returned w
  | sid :: rest, w =>
    match loadSessionV2 sid w with
    | Except.error err => console.Fatalf "Unable to load session ‘%s’, %s" sid (some err) w
    | Except.ok session => clearAllLoop rest (session.Close w).1

/-- The function `clearSession` of `cmd-session.go`. -/
def clearSession (sid : String) (w : World) : Run :=
  if sid = "all" then
    clearAllLoop (getSessionIDs w) w
  else if !isSession sid w then
    console.Fatalf "Session ‘%s’ not found.\n" sid none w
  else
    match loadSessionV2 sid w with
    | Except.error err => console.Fatalf "Unable to load session ‘%s’, %s" sid (some err) w
    | Except.ok session => Run.returned (session.Close w).1

/-- The function `sessionExecute` of `cmd-session.go`: a `switch` on
`s.Header.CommandType` whose only case is `"sync"`; the `"cp"` case is inside a comment.
The driver `doSyncCmdSession` is defined outside the given sources and is a parameter; it
may terminate the process. -/
def sessionExecute (doSyncCmdSession : sessionV2 → World → Run) (s : sessionV2)
    (w : World) : Run :=
  if s.Header.CommandType = "sync" then doSyncCmdSession s w
  else Run.returned w

/-- The `case "resume"` of `runSessionCmd`, from the argument checks to the final
`os.Chdir(savedCwd)`. -/
def resumeCase (doSyncCmdSession : sessionV2 → World → Run) (args : List String)
    (w : World) : Run :=
  if (Args.Tail args).length ≠ 1 then cli.ShowCommandHelpAndExit "session" 1 w
  else if TrimSpace (Args.First (Args.Tail args)) = "" then
    cli.ShowCommandHelpAndExit "session" 1 w
  else
    let sid := TrimSpace (Args.First (Args.Tail args))
    if !isSession sid w then
      console.Fatals "Failed with" (GoError.errInvalidSessionID sid) w
    else
      match loadSessionV2 sid w with
      | Except.error _ => console.Fatals "Failed with" (GoError.errInvalidSessionID sid) w
      | Except.ok s =>
        match os.Getwd w with
        | Except.error err => console.Fatals "Failed with" err w
        | Except.ok savedCwd =>
          let w1 := if s.Header.RootPath ≠ "" then (os.Chdir s.Header.RootPath w).1 else w
          (sessionExecute doSyncCmdSession s w1).andThen fun w2 =>
            match s.Close w2 with
            | (w3, some err) => console.Fatals "Failed with" err w3
            | (w3, none) => Run.returned (os.Chdir savedCwd w3).1

/-- The function `runSessionCmd` of `cmd-session.go`; `args` is `ctx.Args()`. -/
def runSessionCmd (doSyncCmdSession : sessionV2 → World → Run) (args : List String)
    (w : World) : Run :=
  if args.length < 1 || Args.First args = "help" then
    cli.ShowCommandHelpAndExit "session" 1 w
  else if TrimSpace (Args.First args) = "" then
    cli.ShowCommandHelpAndExit "session" 1 w
  else
    let dirStep : Run :=
      if !isSessionDirExists w then
        match createSessionDir w with
        | (w', some err) => console.Fatals "Failed with" err w'
        | (w', none) => Run.returned w'
      else Run.returned w
    dirStep.andThen fun w =>
      if TrimSpace (Args.First args) = "list" then
        match listSessions w with
        | (w', some err) => console.Fatals "Failed with" err w'
        | (w', none) => Run.returned w'
      else if TrimSpace (Args.First args) = "resume" then
        resumeCase doSyncCmdSession args w
      else if TrimSpace (Args.First args) = "clear" then
        if (Args.Tail args).length ≠ 1 then cli.ShowCommandHelpAndExit "session" 1 w
        else if TrimSpace (Args.First (Args.Tail args)) = "" then
          cli.ShowCommandHelpAndExit "session" 1 w
        else clearSession (TrimSpace (Args.First (Args.Tail args))) w
      else cli.ShowCommandHelpAndExit "session" 1 w

/-! ### Sample worlds and drivers -/

/-- A sample execution driver: it reports the session it runs on the console and
returns. -/
def sampleSyncDriver (s : sessionV2) (w : World) : Run :=
  Run.returned { w with console := w.console ++ [ConsoleLine.info ("sync " ++ s.SessionID)] }

/-- A sample execution driver that terminates the process, as a driver does when the
transfer is interrupted (`os.Exit(0)` after saving the session). -/
def sampleExitingDriver (s : sessionV2) (w : World) : Run :=
  Run.exited 0 { w with console := w.console ++ [ConsoleLine.info ("interrupted " ++ s.SessionID)] }

/-- A sample execution driver during whose run the directory `/home/u` is removed. -/
def sampleRemovingDriver (s : sessionV2) (w : World) : Run :=
  Run.returned
    { w with dirs := w.dirs.filter (fun d => d != "/home/u"),
             console := w.console ++ [ConsoleLine.info ("sync " ++ s.SessionID)] }

/-- A sample world: working directory `/home/u`, one persisted `cp` session `s1` and one
persisted `sync` session `s2`, both created in `/data`. -/
def sampleWorld : World :=
  { cwd := "/home/u",
    dirs := ["/home/u", "/data"],
    sessions := [("s1", some { CommandType := "cp", RootPath := "/data" }),
                 ("s2", some { CommandType := "sync", RootPath := "/data" })] }

/-- A sample world with three persisted sessions `a`, `b`, `c`, of which the record of
`b` cannot be decoded. -/
def corruptWorld : World :=
  { cwd := "/home/u",
    dirs := ["/home/u", "/data"],
    sessions := [("a", some { CommandType := "cp", RootPath := "/data" }),
                 ("b", none),
                 ("c", some { CommandType := "sync", RootPath := "/data" })] }


/-! ## `pkg/s3/client.go`

Go strings are byte strings.  `len(s)` is the number of bytes and `s[i]` is a byte, so a
string is embedded as the list of its byte values. -/

/-- The bytes of a string literal whose characters are all ASCII. -/
def ascii (s : String) : List Nat :=
  s.data.map Char.toNat

/-- A character class of a regular expression, given by its ranges `lo-hi` (inclusive):
the alternation of the characters of the ranges. -/
def charClass (ranges : List (Nat × Nat)) : RegularExpression Nat :=
  (ranges.flatMap fun r => List.range' r.1 (r.2 + 1 - r.1)).foldr
    (fun c acc => RegularExpression.char c + acc) 0

/-- A compiled pattern of the library package `regexp`: a body, and whether the pattern
starts with `^` and ends with `$`. -/
structure Regexp where
  anchorStart : Bool
  body : RegularExpression Nat
  anchorEnd : Bool

/-- The library call `regexp.MatchString(pattern, s)`: whether some substring `s[i:j]`
matches the body of the pattern, where `i = 0` when the pattern starts with `^` and
`j = len(s)` when it ends with `$`.

The patterns of this file consist of ASCII literals and ASCII classes only.  The library
matches runes decoded from UTF-8; a byte below `0x80` is always a rune of its own and a
byte from `0x80` up is always part of a rune from `0x80` up (or of an invalid sequence,
read as `U+FFFD`), which no ASCII class or literal accepts.  Matching these patterns
byte by byte is therefore the same as matching them rune by rune. -/
def regexp.MatchString (pattern : Regexp) (s : List Nat) : Bool :=
  (if pattern.anchorStart then [s] else s.tails).any fun t =>
    (if pattern.anchorEnd then [t] else t.inits).any fun u =>
      pattern.body.rmatch u

/-- The pattern `"\\.\\."`: two consecutive dots, anywhere. -/
def dotDotPattern : Regexp :=
  { anchorStart := false,
    body := RegularExpression.char 46 * RegularExpression.char 46,
    anchorEnd := false }

/-- The pattern `"^[a-zA-Z][a-zA-Z0-9\\-]+[a-zA-Z0-9]$"`. -/
def bucketPattern : Regexp :=
  { anchorStart := true,
    body :=
      charClass [(97, 122), (65, 90)]
        * (charClass [(97, 122), (65, 90), (48, 57), (45, 45)]
            * RegularExpression.star (charClass [(97, 122), (65, 90), (48, 57), (45, 45)]))
        * charClass [(97, 122), (65, 90), (48, 57)],
    anchorEnd := true }

/-- The function `IsValidBucket` of `pkg/s3/client.go`. -/
def IsValidBucket (bucket : List Nat) : Bool :=
  if bucket.length < 3 || bucket.length > 63 then
    false
  else if bucket[0]? == some 46 || bucket[bucket.length - 1]? == some 46 then
    false
  else if regexp.MatchString dotDotPattern bucket then
    false
  else
    regexp.MatchString bucketPattern bucket

/-- The library call `strings.Contains(s, substr)`. -/
def strings.Contains (s substr : List Nat) : Bool :=
  decide (substr <:+: s)

/-- The fields of `url.URL` that the client reads. -/
structure URL where
  Scheme : List Nat
  Host : List Nat
  deriving DecidableEq, Repr

/-- The type `s3Client` of `pkg/s3/client.go`; of the embedded `client.Meta` only the
field `URL` is read by the functions below. -/
structure s3Client where
  URL : URL
  deriving DecidableEq, Repr

/-- The method `bucketURL` of `pkg/s3/client.go`.

The library calls are parameters: `SplitHostPort h` is the host that
`net.SplitHostPort(h)` returns (the empty string when it fails), and `ParseIP h` tells
whether `net.ParseIP(h)` is not nil.  The formats `"%s://%s/%s"` and `"%s://%s.%s/"` are
concatenations. -/
def s3Client.bucketURL (SplitHostPort : List Nat → List Nat) (ParseIP : List Nat → Bool)
    (c : s3Client) (bucket : List Nat) : List Nat :=
  if IsValidBucket bucket && !strings.Contains bucket (ascii ".") then
    -- if localhost use PathStyle
    if strings.Contains c.URL.Host (ascii "localhost")
        || strings.Contains c.URL.Host (ascii "127.0.0.1") then
      c.URL.Scheme ++ ascii "://" ++ c.URL.Host ++ ascii "/" ++ bucket
    -- Verify if its ip address, use PathStyle
    else if ParseIP (SplitHostPort c.URL.Host) then
      c.URL.Scheme ++ ascii "://" ++ c.URL.Host ++ ascii "/" ++ bucket
    -- For DNS hostname or amazonaws.com use subdomain style
    else
      c.URL.Scheme ++ ascii "://" ++ bucket ++ ascii "." ++ c.URL.Host ++ ascii "/"
  else
    []

/-- The method `keyURL` of `pkg/s3/client.go`. -/
def s3Client.keyURL (SplitHostPort : List Nat → List Nat) (ParseIP : List Nat → Bool)
    (c : s3Client) (bucket key : List Nat) : List Nat :=
  let url := c.bucketURL SplitHostPort ParseIP bucket
  if strings.Contains c.URL.Host (ascii "localhost")
      || strings.Contains c.URL.Host (ascii "127.0.0.1") then
    url ++ ascii "/" ++ key
  else if ParseIP (SplitHostPort c.URL.Host) then
    url ++ ascii "/" ++ key
  else
    url ++ key

/-- An ASCII letter, `a-z` or `A-Z`. -/
def isAsciiLetter (b : Nat) : Prop :=
  (97 ≤ b ∧ b ≤ 122) ∨ (65 ≤ b ∧ b ≤ 90)

instance : DecidablePred isAsciiLetter := fun b => by
  unfold isAsciiLetter; infer_instance

/-- An ASCII digit, `0-9`. -/
def isAsciiDigit (b : Nat) : Prop :=
  48 ≤ b ∧ b ≤ 57

instance : DecidablePred isAsciiDigit := fun b => by
  unfold isAsciiDigit; infer_instance

/-- A byte that may stand in the middle of a bucket name: an ASCII letter, an ASCII
digit or a hyphen. -/
def isBucketMiddle (b : Nat) : Prop :=
  isAsciiLetter b ∨ isAsciiDigit b ∨ b = 45

instance : DecidablePred isBucketMiddle := fun b => by
  unfold isBucketMiddle; infer_instance

/-! ## Theorems: `sync-url.go` -/

section SyncURL

variable (guess : List String → String → copyURLsType)
variable (planA planB : String → String → cpURLs) (planC : String → String → List cpURLs)

/-- The single-file loop appends the target contents of the per-target copy pairs to the
accumulator, in target order, and leaves `Error` as it was. -/
theorem singleFileLoop_spec (plan : String → String → cpURLs) (sourceURL : String) :
    ∀ (targetURLs : List String) (sURLs : syncURLs),
      (singleFileLoop plan sourceURL targetURLs sURLs).TargetContent
          = sURLs.TargetContent ++ targetURLs.map (fun t => (plan sourceURL t).TargetContent)
        ∧ (singleFileLoop plan sourceURL targetURLs sURLs).Error = sURLs.Error := by
  intro targetURLs
  induction targetURLs with
  | nil => intro sURLs; simp [singleFileLoop]
  | cons t ts ih =>
    intro sURLs
    obtain ⟨h1, h2⟩ := ih { sURLs with
      SourceContent := (plan sourceURL t).SourceContent,
      TargetContent := sURLs.TargetContent ++ [(plan sourceURL t).TargetContent] }
    simp only [singleFileLoop]
    exact ⟨by rw [h1]; simp, by rw [h2]⟩

/-- Every pair sent by the recursive loop carries the `Error` of the accumulator it was
started with. -/
theorem recursiveLoop_error :
    ∀ (ch0 : List cpURLs) (chs : List (List cpURLs)) (acc : syncURLs),
      ∀ p ∈ (recursiveLoop ch0 chs acc).sent, p.Error = acc.Error := by
  intro ch0
  induction ch0 with
  | nil => intro chs acc p hp; simp [recursiveLoop] at hp
  | cons cp ch0 ih =>
    intro chs acc p hp
    unfold recursiveLoop at hp
    cases hr : recvRest chs acc.TargetContent with
    | none => simp [hr] at hp
    | some pr =>
      obtain ⟨chs', tc⟩ := pr
      simp only [hr, List.mem_cons] at hp
      rcases hp with hp | hp
      · rw [hp]
      · exact ih chs' _ p hp |>.trans rfl

/-- C1. For a single-file topology (type A or type B, classified against the first
target) and a non-empty target list, `prepareSyncURLs` sends exactly one sync pair and
closes the channel; the pair's `TargetContent` has one entry per target, the i-th entry
being the target content of the copy pair that `prepareCopyURLsTypeA` (type A) or
`prepareCopyURLsTypeB` (type B) produces for the source and the i-th target. -/
theorem prepareSyncURLs_singleFile (sourceURL target0 : String) (rest : List String)
    (h : guess [sourceURL] target0 = cpURLsTypeA ∨ guess [sourceURL] target0 = cpURLsTypeB) :
    ∃ p : syncURLs,
      prepareSyncURLs guess planA planB planC sourceURL (target0 :: rest)
          = { sent := [p], crashed := false }
        ∧ p.TargetContent.length = (target0 :: rest).length
        ∧ p.TargetContent = (target0 :: rest).map (fun t =>
            ((if guess [sourceURL] target0 = cpURLsTypeA then planA else planB)
              sourceURL t).TargetContent) := by
  rcases h with h | h
  · refine ⟨singleFileLoop planA sourceURL (target0 :: rest) {}, ?_, ?_, ?_⟩
    · simp [prepareSyncURLs, h]
    · rw [(singleFileLoop_spec planA sourceURL (target0 :: rest) {}).1]; simp
    · rw [(singleFileLoop_spec planA sourceURL (target0 :: rest) {}).1]; simp [h]
  · refine ⟨singleFileLoop planB sourceURL (target0 :: rest) {}, ?_, ?_, ?_⟩
    · simp [prepareSyncURLs, h]
    · rw [(singleFileLoop_spec planB sourceURL (target0 :: rest) {}).1]; simp
    · rw [(singleFileLoop_spec planB sourceURL (target0 :: rest) {}).1]; simp [h]

/-- Witness of C1: a file synced to three directories. -/
theorem prepareSyncURLs_singleFile_witness :
    ∃ p : syncURLs,
      prepareSyncURLs (specGuessCopyURLType []) (specCopyURLsTypeA []) (specCopyURLsTypeB [])
          (specCopyURLsTypeC []) "x/f" ["d1/", "d2/", "d3/"]
          = { sent := [p], crashed := false }
        ∧ p.TargetContent.length = ["d1/", "d2/", "d3/"].length
        ∧ p.TargetContent = ["d1/", "d2/", "d3/"].map (fun t =>
            ((if specGuessCopyURLType [] ["x/f"] "d1/" = cpURLsTypeA
              then specCopyURLsTypeA [] else specCopyURLsTypeB []) "x/f" t).TargetContent) :=
  prepareSyncURLs_singleFile (specGuessCopyURLType []) (specCopyURLsTypeA [])
    (specCopyURLsTypeB []) (specCopyURLsTypeC []) "x/f" "d1/" ["d2/", "d3/"]
    (Or.inr (by decide))

/-- C2 (evaluation at the failing input). Source tree `{a, b/c}` under `d1/...` synced to
the targets `[t1/, t2/]`: the code sends two sync pairs, but the first has one target
entry (for `t2/` only: the copy pair of the first target is read for its source and its
target content is never appended) and the second has two entries, both for `t2/` (the
stale `t2/a` of the first pair, then `t2/b/c`), as the accumulator is not reset. -/
theorem prepareSyncURLs_recursive_eval :
    prepareSyncURLs (specGuessCopyURLType []) (specCopyURLsTypeA []) (specCopyURLsTypeB [])
        (specCopyURLsTypeC ["a", "b/c"]) "d1/..." ["t1/", "t2/"]
      = { sent :=
            [ { SourceContent := some { Name := "d1/a" },
                TargetContent := [some { Name := "t2/a" }],
                Error := none },
              { SourceContent := some { Name := "d1/b/c" },
                TargetContent := [some { Name := "t2/a" }, some { Name := "t2/b/c" }],
                Error := none } ],
          crashed := false } := by
  decide

/-- One round of receives over channels that all still hold a copy pair takes the head
of each and appends one target content per channel. -/
theorem recvRest_nonempty :
    ∀ (chs : List (List cpURLs)) (acc : List (Option Content)),
      (∀ ch ∈ chs, ch ≠ []) →
      ∃ tc, recvRest chs acc = some (chs.map List.tail, tc)
        ∧ tc.length = acc.length + chs.length := by
  intro chs
  induction chs with
  | nil => intro acc _; exact ⟨acc, rfl, rfl⟩
  | cons ch chs ih =>
    intro acc hne
    obtain ⟨cp, ch', rfl⟩ := List.exists_cons_of_ne_nil (hne ch (List.mem_cons_self _ _))
    obtain ⟨tc, htc, hlen⟩ := ih (acc ++ [cp.TargetContent])
      (fun c hc => hne c (List.mem_cons_of_mem _ hc))
    refine ⟨tc, ?_, ?_⟩
    · simp only [recvRest, htc, List.map_cons, List.tail_cons]
    · rw [hlen, List.length_append, List.length_singleton, List.length_cons]
      omega

/-- The recursive loop over channels of one common length `m` does not crash and sends
`m` sync pairs; the k-th of them (counted from 0) has `(k + 1) * n` target entries more
than the accumulator it was started with, `n` being the number of channels after the
first. -/
theorem recursiveLoop_counts :
    ∀ (ch0 : List cpURLs) (chs : List (List cpURLs)) (acc : syncURLs),
      (∀ ch ∈ chs, ch.length = ch0.length) →
      (recursiveLoop ch0 chs acc).crashed = false
        ∧ (recursiveLoop ch0 chs acc).sent.map (fun p => p.TargetContent.length)
          = (List.range ch0.length).map
              (fun k => acc.TargetContent.length + (k + 1) * chs.length) := by
  intro ch0
  induction ch0 with
  | nil => intro chs acc _; simp [recursiveLoop]
  | cons cp ch0 ih =>
    intro chs acc hlen
    have hne : ∀ ch ∈ chs, ch ≠ [] := by
      intro ch hch h
      have := hlen ch hch
      rw [h] at this
      simp at this
    obtain ⟨tc, htc, htcl⟩ := recvRest_nonempty chs acc.TargetContent hne
    have hlen' : ∀ ch ∈ chs.map List.tail, ch.length = ch0.length := by
      intro ch hch
      obtain ⟨c, hc, rfl⟩ := List.mem_map.mp hch
      have := hlen c hc
      simp only [List.length_cons] at this
      simp [List.length_tail, this]
    obtain ⟨h1, h2⟩ := ih (chs.map List.tail)
      { acc with SourceContent := cp.SourceContent, TargetContent := tc } hlen'
    unfold recursiveLoop
    simp only [htc]
    refine ⟨h1, ?_⟩
    simp only [List.map_cons, h2, List.length_cons, List.range_succ_eq_map, List.map_map,
      List.length_map, htcl]
    refine congrArg₂ List.cons (by simp) ?_
    apply List.map_congr_left
    intro k _
    simp only [Function.comp, Nat.succ_eq_add_one]
    rw [Nat.add_mul (k + 1) 1 chs.length]
    omega

/-- The divergence behind C2, for every input: in a recursive-directory sync (type C) of
`N` targets whose per-target copy sequences all have the length `m`, the code sends `m`
sync pairs without crashing, and the k-th pair (counted from 0) has `(k + 1) * (N - 1)`
target entries, not `N`. -/
theorem prepareSyncURLs_recursive_counts (sourceURL target0 : String) (rest : List String)
    (h : guess [sourceURL] target0 = cpURLsTypeC)
    (hlen : ∀ t ∈ rest, (planC sourceURL t).length = (planC sourceURL target0).length) :
    (prepareSyncURLs guess planA planB planC sourceURL (target0 :: rest)).crashed = false
      ∧ (prepareSyncURLs guess planA planB planC sourceURL (target0 :: rest)).sent.map
          (fun p => p.TargetContent.length)
        = (List.range (planC sourceURL target0).length).map
            (fun k => (k + 1) * rest.length) := by
  have hl : ∀ ch ∈ rest.map (planC sourceURL), ch.length = (planC sourceURL target0).length := by
    intro ch hch
    obtain ⟨t, ht, rfl⟩ := List.mem_map.mp hch
    exact hlen t ht
  obtain ⟨h1, h2⟩ := recursiveLoop_counts (planC sourceURL target0)
    (rest.map (planC sourceURL)) {} hl
  simp only [prepareSyncURLs, h]
  refine ⟨h1, ?_⟩
  rw [h2]
  simp

/-- C3. When the classification of the source against the first target is none of the
types A, B, C, `prepareSyncURLs` sends exactly one sync pair, which carries the
invalid-argument error and no contents, and then closes the channel. -/
theorem prepareSyncURLs_invalid (sourceURL target0 : String) (rest : List String)
    (hA : guess [sourceURL] target0 ≠ cpURLsTypeA)
    (hB : guess [sourceURL] target0 ≠ cpURLsTypeB)
    (hC : guess [sourceURL] target0 ≠ cpURLsTypeC) :
    prepareSyncURLs guess planA planB planC sourceURL (target0 :: rest)
      = { sent := [{ SourceContent := none, TargetContent := [],
                     Error := some GoError.errInvalidArgument }],
          crashed := false } := by
  cases hg : guess [sourceURL] target0 with
  | cpURLsTypeA => exact absurd hg hA
  | cpURLsTypeB => exact absurd hg hB
  | cpURLsTypeC => exact absurd hg hC
  | other tag => simp [prepareSyncURLs, hg]

/-- Witness of C3: a recursive source synced to a plain file and a directory. -/
theorem prepareSyncURLs_invalid_witness :
    prepareSyncURLs (specGuessCopyURLType []) (specCopyURLsTypeA []) (specCopyURLsTypeB [])
        (specCopyURLsTypeC ["a"]) "d1/..." ["g", "t1/"]
      = { sent := [{ SourceContent := none, TargetContent := [],
                     Error := some GoError.errInvalidArgument }],
          crashed := false } :=
  prepareSyncURLs_invalid (specGuessCopyURLType []) (specCopyURLsTypeA [])
    (specCopyURLsTypeB []) (specCopyURLsTypeC ["a"]) "d1/..." "g" ["t1/"]
    (by decide) (by decide) (by decide)

/-- C4 (counterexample). A file synced to three directories of which the second fails to
resolve: the copy pair for `bad/` carries an error, yet no sync pair sent by
`prepareSyncURLs` carries it. -/
theorem prepareSyncURLs_error_dropped :
    (specCopyURLsTypeB ["bad/"] "x/f" "bad/").Error
        = some (GoError.other "cannot resolve bad/")
      ∧ ¬ ∃ p ∈ (prepareSyncURLs (specGuessCopyURLType []) (specCopyURLsTypeA ["bad/"])
            (specCopyURLsTypeB ["bad/"]) (specCopyURLsTypeC []) "x/f"
            ["d1/", "bad/", "d3/"]).sent,
          p.Error = some (GoError.other "cannot resolve bad/") := by
  decide

/-- C4 (amended). In a single-file sync (type A or B) in which the copy pair of the i-th
target carries an error, `prepareSyncURLs` still sends exactly one sync pair and closes
the channel; the i-th slot of its `TargetContent` holds the target content of that copy
pair, and the sync pair's own `Error` is nil: the copy pair's error is not carried over. -/
theorem prepareSyncURLs_copyError (sourceURL target0 : String) (rest : List String)
    (i : Nat) (t : String) (e : GoError)
    (h : guess [sourceURL] target0 = cpURLsTypeA ∨ guess [sourceURL] target0 = cpURLsTypeB)
    (ht : (target0 :: rest)[i]? = some t)
    (_he : ((if guess [sourceURL] target0 = cpURLsTypeA then planA else planB)
              sourceURL t).Error = some e) :
    ∃ p : syncURLs,
      prepareSyncURLs guess planA planB planC sourceURL (target0 :: rest)
          = { sent := [p], crashed := false }
        ∧ p.Error = none
        ∧ p.TargetContent[i]? = some
            ((if guess [sourceURL] target0 = cpURLsTypeA then planA else planB)
              sourceURL t).TargetContent := by
  rcases h with h | h
  · refine ⟨singleFileLoop planA sourceURL (target0 :: rest) {}, ?_, ?_, ?_⟩
    · simp [prepareSyncURLs, h]
    · rw [(singleFileLoop_spec planA sourceURL (target0 :: rest) {}).2]
    · rw [(singleFileLoop_spec planA sourceURL (target0 :: rest) {}).1]
      simp only [List.nil_append, List.getElem?_map, ht, Option.map_some', h, if_true]
  · refine ⟨singleFileLoop planB sourceURL (target0 :: rest) {}, ?_, ?_, ?_⟩
    · simp [prepareSyncURLs, h]
    · rw [(singleFileLoop_spec planB sourceURL (target0 :: rest) {}).2]
    · rw [(singleFileLoop_spec planB sourceURL (target0 :: rest) {}).1]
      have hne : ¬ (cpURLsTypeB = cpURLsTypeA) := by decide
      simp only [List.nil_append, List.getElem?_map, ht, Option.map_some', h, hne, if_false]

/-- Witness of C4 (amended): the second of three target directories fails to resolve. -/
theorem prepareSyncURLs_copyError_witness :
    ∃ p : syncURLs,
      prepareSyncURLs (specGuessCopyURLType []) (specCopyURLsTypeA ["bad/"])
          (specCopyURLsTypeB ["bad/"]) (specCopyURLsTypeC []) "x/f" ["d1/", "bad/", "d3/"]
          = { sent := [p], crashed := false }
        ∧ p.Error = none
        ∧ p.TargetContent[1]? = some
            ((if specGuessCopyURLType [] ["x/f"] "d1/" = cpURLsTypeA
              then specCopyURLsTypeA ["bad/"] else specCopyURLsTypeB ["bad/"])
              "x/f" "bad/").TargetContent :=
  prepareSyncURLs_copyError (specGuessCopyURLType []) (specCopyURLsTypeA ["bad/"])
    (specCopyURLsTypeB ["bad/"]) (specCopyURLsTypeC []) "x/f" "d1/" ["bad/", "d3/"] 1 "bad/"
    (GoError.other "cannot resolve bad/") (Or.inr (by decide)) (by decide) (by decide)

/-- C5 (counterexample). A file synced to the targets `[d1/, g]`, the second of which is
not directory-like: the sequence does not fail with a classification error; one
transfer pair is sent, with a target entry for the plain file `g` as well. -/
theorem prepareSyncURLs_mixed_targets :
    isDirectoryLike [] "g" = false
      ∧ prepareSyncURLs (specGuessCopyURLType []) (specCopyURLsTypeA []) (specCopyURLsTypeB [])
          (specCopyURLsTypeC []) "x/f" ["d1/", "g"]
        = { sent := [ { SourceContent := some { Name := "x/f" },
                        TargetContent := [some { Name := "d1/f" }, some { Name := "gf" }],
                        Error := none } ],
            crashed := false } := by
  decide

/-- C5 (amended). `prepareSyncURLs` classifies the source against the first target only
and does not check the remaining targets: whenever that classification is type A, B
or C, no sync pair sent carries an error, whatever the remaining targets are, and for
types A and B exactly one pair is sent. -/
theorem prepareSyncURLs_first_target_only (sourceURL target0 : String) (rest : List String)
    (h : guess [sourceURL] target0 = cpURLsTypeA ∨ guess [sourceURL] target0 = cpURLsTypeB
          ∨ guess [sourceURL] target0 = cpURLsTypeC) :
    (∀ p ∈ (prepareSyncURLs guess planA planB planC sourceURL (target0 :: rest)).sent,
        p.Error = none)
      ∧ (guess [sourceURL] target0 ≠ cpURLsTypeC →
          (prepareSyncURLs guess planA planB planC sourceURL (target0 :: rest)).sent.length
            = 1) := by
  rcases h with h | h | h
  · refine ⟨?_, fun _ => by simp [prepareSyncURLs, h]⟩
    intro p hp
    simp only [prepareSyncURLs, h, List.mem_singleton] at hp
    rw [hp, (singleFileLoop_spec planA sourceURL (target0 :: rest) {}).2]
  · refine ⟨?_, fun _ => by simp [prepareSyncURLs, h]⟩
    intro p hp
    simp only [prepareSyncURLs, h, List.mem_singleton] at hp
    rw [hp, (singleFileLoop_spec planB sourceURL (target0 :: rest) {}).2]
  · refine ⟨?_, fun hne => absurd h hne⟩
    intro p hp
    simp only [prepareSyncURLs, h] at hp
    exact recursiveLoop_error _ _ _ p hp

/-- Witness of C5 (amended): directory targets followed by a plain file. -/
theorem prepareSyncURLs_first_target_only_witness :
    (∀ p ∈ (prepareSyncURLs (specGuessCopyURLType []) (specCopyURLsTypeA [])
          (specCopyURLsTypeB []) (specCopyURLsTypeC []) "x/f" ["d1/", "g"]).sent,
        p.Error = none)
      ∧ (specGuessCopyURLType [] ["x/f"] "d1/" ≠ cpURLsTypeC →
          (prepareSyncURLs (specGuessCopyURLType []) (specCopyURLsTypeA [])
            (specCopyURLsTypeB []) (specCopyURLsTypeC []) "x/f" ["d1/", "g"]).sent.length
            = 1) :=
  prepareSyncURLs_first_target_only (specGuessCopyURLType []) (specCopyURLsTypeA [])
    (specCopyURLsTypeB []) (specCopyURLsTypeC []) "x/f" "d1/" ["g"]
    (Or.inr (Or.inl (by decide)))

end SyncURL

/-! ## Theorems: `cmd-session.go` -/

section Session

variable (doSync : sessionV2 → World → Run)

theorem trimSpace_resume : TrimSpace "resume" = "resume" := by decide

/-- On the arguments `resume <sid>` the guards of `runSessionCmd` pass and, once the
session directory exists, control reaches the `resume` case. -/
theorem runSessionCmd_resume (sid : String) (w : World) :
    runSessionCmd doSync ["resume", sid] w
      = (if !isSessionDirExists w then
          match createSessionDir w with
          | (w', some err) => console.Fatals "Failed with" err w'
          | (w', none) => Run.returned w'
        else Run.returned w).andThen
          (fun w => resumeCase doSync ["resume", sid] w) := by
  have h1 : ¬ ("resume" = "help") := by decide
  have h2 : ¬ ("resume" = "") := by decide
  have h3 : ¬ ("resume" = "list") := by decide
  simp [runSessionCmd, Args.First, trimSpace_resume, h1, h2, h3]

/-- The session-directory step of `runSessionCmd` changes neither the working directory
nor the persisted sessions nor the directories that exist. -/
theorem dirStep_frame (w w' : World)
    (h : (if !isSessionDirExists w then
          match createSessionDir w with
          | (w', some err) => console.Fatals "Failed with" err w'
          | (w', none) => Run.returned w'
        else Run.returned w) = Run.returned w') :
    w'.cwd = w.cwd ∧ w'.sessions = w.sessions ∧ w'.dirs = w.dirs := by
  unfold isSessionDirExists createSessionDir console.Fatals at h
  by_cases hd : w.sessionDir = true
  · simp [hd] at h; subst h; exact ⟨rfl, rfl, rfl⟩
  · by_cases hc : w.sessionDirCreatable = true
    · simp [hd, hc] at h; subst h; exact ⟨rfl, rfl, rfl⟩
    · simp [hd, hc] at h

/-- C6 (evaluation at the failing input). Resuming the persisted `cp` session `s1`:
`sessionExecute` returns without running anything (the world is unchanged, nothing is
written by a driver), and `runSessionCmd` then closes the session: its record is deleted
although it was never re-executed. -/
theorem resume_cp_not_executed :
    sessionExecute sampleSyncDriver
        { SessionID := "s1", Header := { CommandType := "cp", RootPath := "/data" } }
        sampleWorld
      = Run.returned sampleWorld
    ∧ runSessionCmd sampleSyncDriver ["resume", "s1"] sampleWorld
      = Run.returned
          { sampleWorld with
            sessions := [("s2", some { CommandType := "sync", RootPath := "/data" })] } := by
  decide

/-- The session that `loadSessionV2` returns carries the persisted header. -/
theorem loadSessionV2_ok (sid : String) (w : World) (s : sessionV2)
    (h : loadSessionV2 sid w = Except.ok s) :
    w.sessions.lookup sid = some (some s.Header) := by
  unfold loadSessionV2 at h
  split at h
  · exact absurd h (by simp)
  · exact absurd h (by simp)
  · rename_i header hl
    injection h with h
    subst h
    exact hl

/-- What `sessionExecute` does for every input: it runs the sync session when the command
type is `"sync"`; for every other command type, `"cp"` included, it runs nothing and
returns with the world unchanged.  Resuming a persisted session whose command type is
not `"sync"` therefore never runs a driver: the outcome of `runSessionCmd` is the same
whatever the driver is. -/
theorem sessionExecute_spec (doSync' : sessionV2 → World → Run) (s : sessionV2) (w : World)
    (sid : String) :
    (s.Header.CommandType = "sync" → sessionExecute doSync s w = doSync s w)
      ∧ (s.Header.CommandType ≠ "sync" → sessionExecute doSync s w = Run.returned w)
      ∧ (s.Header.CommandType = "cp" → sessionExecute doSync s w = Run.returned w)
      ∧ ((∀ header, w.sessions.lookup (TrimSpace sid) = some (some header) →
            header.CommandType ≠ "sync") →
          runSessionCmd doSync ["resume", sid] w = runSessionCmd doSync' ["resume", sid] w) := by
  refine ⟨fun h => by simp [sessionExecute, h], fun h => by simp [sessionExecute, h], ?_, ?_⟩
  · intro h
    have hne : ¬ ("cp" = "sync") := by decide
    simp [sessionExecute, h, hne]
  · intro hcmd
    rw [runSessionCmd_resume, runSessionCmd_resume]
    generalize hstep : (if !isSessionDirExists w then
          match createSessionDir w with
          | (w', some err) => console.Fatals "Failed with" err w'
          | (w', none) => Run.returned w'
        else Run.returned w) = step
    cases step with
    | exited code w0 => rfl
    | returned w0 =>
      obtain ⟨-, hsess, -⟩ := dirStep_frame w w0 hstep
      simp only [Run.andThen, resumeCase, Args.Tail, Args.First, List.tail_cons,
        List.headD_cons]
      split
      · rfl
      split
      · rfl
      split
      · rfl
      split
      · rfl
      rename_i s0 hs0
      have hl := loadSessionV2_ok _ _ _ hs0
      rw [hsess] at hl
      have hns := hcmd s0.Header hl
      simp only [sessionExecute, hns, if_false]

/-- The three cases of `sessionExecute_spec` on the sample world: a `sync` session, a `cp`
session, and the resume of the `cp` session under two different drivers. -/
theorem sessionExecute_spec_sample :
    sessionExecute sampleSyncDriver
        { SessionID := "s2", Header := { CommandType := "sync", RootPath := "/data" } }
        sampleWorld
      = sampleSyncDriver
          { SessionID := "s2", Header := { CommandType := "sync", RootPath := "/data" } }
          sampleWorld
    ∧ sessionExecute sampleSyncDriver
        { SessionID := "s1", Header := { CommandType := "cp", RootPath := "/data" } }
        sampleWorld
      = Run.returned sampleWorld
    ∧ runSessionCmd sampleSyncDriver ["resume", "s1"] sampleWorld
      = runSessionCmd (fun _ w => Run.exited 2 w) ["resume", "s1"] sampleWorld :=
  ⟨(sessionExecute_spec sampleSyncDriver sampleSyncDriver
      { SessionID := "s2", Header := { CommandType := "sync", RootPath := "/data" } }
      sampleWorld "s2").1 rfl,
   (sessionExecute_spec sampleSyncDriver sampleSyncDriver
      { SessionID := "s1", Header := { CommandType := "cp", RootPath := "/data" } }
      sampleWorld "s1").2.2.1 rfl,
   (sessionExecute_spec sampleSyncDriver (fun _ w => Run.exited 2 w)
      { SessionID := "s1", Header := { CommandType := "cp", RootPath := "/data" } }
      sampleWorld "s1").2.2.2 (by
        intro header h
        have hl : sampleWorld.sessions.lookup (TrimSpace "s1")
            = some (some { CommandType := "cp", RootPath := "/data" }) := by decide
        rw [hl] at h
        simp only [Option.some.injEq] at h
        subst h
        decide)⟩

theorem splitSlash_no_slash : ∀ (cs : List Char), ∀ comp ∈ splitSlash cs, '/' ∉ comp := by
  intro cs
  induction cs with
  | nil => intro comp h; simp [splitSlash] at h; simp [h]
  | cons c cs ih =>
    intro comp h
    unfold splitSlash at h
    by_cases hc : c = '/'
    · rw [if_pos hc] at h
      rcases List.mem_cons.mp h with rfl | h
      · simp
      · exact ih comp h
    · rw [if_neg hc] at h
      cases hs : splitSlash cs with
      | nil =>
        rw [hs] at h
        simp only [List.mem_singleton] at h
        subst h
        simpa using fun e => hc e.symm
      | cons comp0 rest =>
        rw [hs] at h ih
        simp only [List.mem_cons] at h
        rcases h with rfl | h
        · have h0 := ih comp0 (List.mem_cons_self _ _)
          simp only [List.mem_cons, not_or]
          exact ⟨fun e => hc e.symm, h0⟩
        · exact ih comp (List.mem_cons_of_mem _ h)

theorem splitSlash_component : ∀ (comp : List Char), '/' ∉ comp →
    splitSlash comp = [comp]
      ∧ ∀ ys, splitSlash (comp ++ '/' :: ys) = comp :: splitSlash ys := by
  intro comp
  induction comp with
  | nil => intro _; exact ⟨rfl, fun ys => by simp [splitSlash]⟩
  | cons c comp ih =>
    intro h
    simp only [List.mem_cons, not_or] at h
    obtain ⟨h1, h2⟩ := ih h.2
    have hc : ¬ (c = '/') := fun e => h.1 e.symm
    constructor
    · unfold splitSlash
      rw [if_neg hc, h1]
    · intro ys
      rw [List.cons_append, splitSlash, if_neg hc, h2 ys]

theorem splitSlash_render : ∀ (stack : List (List Char)),
    (∀ comp ∈ stack, goodComponent comp) →
    ∀ comp0, '/' ∉ comp0 →
      splitSlash (comp0 ++ stack.flatMap fun comp => '/' :: comp) = comp0 :: stack := by
  intro stack
  induction stack with
  | nil =>
    intro _ comp0 h0
    simpa using (splitSlash_component comp0 h0).1
  | cons comp stack ih =>
    intro hgood comp0 h0
    have hg := hgood comp (List.mem_cons_self _ _)
    simp only [List.flatMap_cons, List.cons_append]
    rw [(splitSlash_component comp0 h0).2,
      ih (fun c hc => hgood c (List.mem_cons_of_mem _ hc)) comp hg.1]

theorem walk_good : ∀ (stack acc : List (List Char)),
    (∀ comp ∈ stack, goodComponent comp) → stack.foldl walkStep acc = acc ++ stack := by
  intro stack
  induction stack with
  | nil => intro acc _; simp
  | cons comp stack ih =>
    intro acc hgood
    obtain ⟨-, h1, h2, h3⟩ := hgood comp (List.mem_cons_self _ _)
    have hstep : walkStep acc comp = acc ++ [comp] := by
      unfold walkStep
      rw [if_neg (by simp [h1, h2]), if_neg h3]
    rw [List.foldl_cons, hstep, ih _ (fun c hc => hgood c (List.mem_cons_of_mem _ hc))]
    simp

theorem walk_keeps_good : ∀ (comps acc : List (List Char)),
    (∀ comp ∈ comps, '/' ∉ comp) → (∀ comp ∈ acc, goodComponent comp) →
    ∀ comp ∈ comps.foldl walkStep acc, goodComponent comp := by
  intro comps
  induction comps with
  | nil => intro acc _ hacc; simpa using hacc
  | cons c comps ih =>
    intro acc hns hacc
    rw [List.foldl_cons]
    apply ih _ (fun x hx => hns x (List.mem_cons_of_mem _ hx))
    intro comp hcomp
    unfold walkStep at hcomp
    split at hcomp
    · exact hacc comp hcomp
    · rename_i h1
      split at hcomp
      · exact hacc comp (List.mem_of_mem_dropLast hcomp)
      · rename_i h2
        rcases List.mem_append.mp hcomp with h | h
        · exact hacc comp h
        · rw [List.mem_singleton] at h
          subst h
          simp only [not_or] at h1
          exact ⟨hns comp (List.mem_cons_self _ _), h1.1, h1.2, h2⟩

/-- The absolute name of a directory resolves to itself from every working directory. -/
theorem renderPath_fixed (stack : List (List Char))
    (hstack : ∀ comp ∈ stack, goodComponent comp) (cwd' : String) :
    renderPath stack ≠ "" ∧ resolvePath cwd' (renderPath stack) = renderPath stack := by
  cases stack with
  | nil => exact ⟨by decide, rfl⟩
  | cons comp stack =>
    have hne : ¬ (comp :: stack = []) := by simp
    have hdata : (renderPath (comp :: stack)).data
        = '/' :: (comp ++ stack.flatMap fun c => '/' :: c) := by
      unfold renderPath
      rw [if_neg hne]
      simp
    constructor
    · intro h
      have := congrArg String.data h
      rw [hdata] at this
      simp at this
    · have hsplit : splitSlash (renderPath (comp :: stack)).data = [] :: comp :: stack := by
        rw [hdata]
        have := splitSlash_render (comp :: stack) hstack [] (by simp)
        simpa using this
      have h0 : walkStep [] [] = [] := by decide
      unfold resolvePath
      simp only []
      rw [hsplit, hdata]
      simp only [List.head?_cons, if_true, List.foldl_cons, h0]
      rw [← List.foldl_cons, walk_good (comp :: stack) [] hstack]
      simp

/-- The name that path-name resolution returns is absolute and resolves to itself from
every working directory. -/
theorem resolvePath_fixed (cwd dir cwd' : String) :
    resolvePath cwd dir ≠ ""
      ∧ resolvePath cwd' (resolvePath cwd dir) = resolvePath cwd dir := by
  have hbase : ∀ comp ∈ (if dir.data.head? = some '/' then []
      else (splitSlash cwd.data).foldl walkStep []), goodComponent comp := by
    split
    · intro comp h; simp at h
    · exact walk_keeps_good _ [] (splitSlash_no_slash cwd.data) (by simp)
  have hstack := walk_keeps_good _ _ (splitSlash_no_slash dir.data) hbase
  have hr : resolvePath cwd dir = renderPath ((splitSlash dir.data).foldl walkStep
      (if dir.data.head? = some '/' then [] else (splitSlash cwd.data).foldl walkStep [])) := rfl
  rw [hr]
  exact renderPath_fixed _ hstack cwd'

/-- C8 (counterexample). Resuming the `sync` session `s2` (root path `/data`) from the
working directory `/home/u`, on three paths.  When `Close` fails, the process is
terminated by `console.Fatals` with `/data` as its working directory.  When the session
execution itself terminates the process, it ends with `/data` as its working directory.
When the run returns but `/home/u` was removed meanwhile, `os.Chdir(savedCwd)` fails and
the working directory stays `/data`. -/
theorem resume_close_error_cwd :
    runSessionCmd sampleSyncDriver ["resume", "s2"] { sampleWorld with undeletable := ["s2"] }
      = Run.exited 1
          { sampleWorld with
            cwd := "/data",
            undeletable := ["s2"],
            console := [ConsoleLine.info "sync s2",
                        ConsoleLine.fatals "Failed with" (GoError.other "CloseFailed")] }
    ∧ (runSessionCmd sampleSyncDriver ["resume", "s2"]
          { sampleWorld with undeletable := ["s2"] }).world.cwd ≠ sampleWorld.cwd
    ∧ runSessionCmd sampleExitingDriver ["resume", "s2"] sampleWorld
      = Run.exited 0
          { sampleWorld with
            cwd := "/data",
            console := [ConsoleLine.info "interrupted s2"] }
    ∧ runSessionCmd sampleRemovingDriver ["resume", "s2"] sampleWorld
      = Run.returned
          { sampleWorld with
            cwd := "/data",
            dirs := ["/data"],
            sessions := [("s1", some { CommandType := "cp", RootPath := "/data" })],
            console := [ConsoleLine.info "sync s2"] } := by
  decide

/-- A key that `lookup` finds is among the keys. -/
theorem mem_keys_of_lookup {β : Type} (k : String) (v : β) :
    ∀ l : List (String × β), l.lookup k = some v → k ∈ l.map Prod.fst := by
  intro l
  induction l with
  | nil => intro h; simp at h
  | cons p l ih =>
    intro h
    obtain ⟨a, b⟩ := p
    by_cases hka : k = a
    · simp [hka]
    · have hbeq : (k == a) = false := by simpa using hka
      simp only [List.lookup_cons, hbeq] at h
      exact List.mem_cons_of_mem _ (ih h)

/-- C8 (amended). The `resume` branch of `runSessionCmd`, entered with the working
directory `w`, on each of its paths once the session is loaded.

* When the branch returns (the session executes without terminating the process and
  `Close` returns nil) and the directory `w` still exists, the working directory is
  again `w`: the world's `cwd` is the absolute name of `w`, and `os.Getwd` reports what
  it reported on entry.
* When the session execution terminates the process, the process ends in the state the
  execution left: `os.Chdir(savedCwd)` is not reached.
* When `Close` returns an error, the process is terminated by `console.Fatals` with
  status 1 in the state `Close` left, the working directory included:
  `os.Chdir(savedCwd)` is not reached.

The last two are stated for the branch itself, `resumeCase`, which is all that
`runSessionCmd` runs on these arguments once the session directory exists. -/
theorem resume_cwd_spec (sid : String) (w : World) :
    (∀ w', runSessionCmd doSync ["resume", sid] w = Run.returned w' →
        w'.dirs.contains w.workingDir = true →
        w'.cwd = w.workingDir ∧ os.Getwd w' = os.Getwd w)
      ∧ (∀ (s : sessionV2) (savedCwd : String),
          TrimSpace sid ≠ "" →
          loadSessionV2 (TrimSpace sid) w = Except.ok s →
          os.Getwd w = Except.ok savedCwd →
          (∀ code w2,
              sessionExecute doSync s
                  (if s.Header.RootPath ≠ "" then (os.Chdir s.Header.RootPath w).1 else w)
                = Run.exited code w2 →
              resumeCase doSync ["resume", sid] w = Run.exited code w2)
            ∧ (∀ w2 w3 err,
              sessionExecute doSync s
                  (if s.Header.RootPath ≠ "" then (os.Chdir s.Header.RootPath w).1 else w)
                = Run.returned w2 →
              s.Close w2 = (w3, some err) →
              resumeCase doSync ["resume", sid] w
                = Run.exited 1
                    { w3 with console :=
                        w3.console ++ [ConsoleLine.fatals "Failed with" err] }))
      ∧ (isSessionDirExists w = true →
          runSessionCmd doSync ["resume", sid] w = resumeCase doSync ["resume", sid] w) := by
  refine ⟨?_, ?_, ?_⟩
  rotate_left 2
  · intro hdir
    rw [runSessionCmd_resume]
    simp [hdir, Run.andThen]
  · intro w' h hd
    rw [runSessionCmd_resume] at h
    generalize hstep : (if !isSessionDirExists w then
            match createSessionDir w with
            | (w', some err) => console.Fatals "Failed with" err w'
            | (w', none) => Run.returned w'
          else Run.returned w) = step at h
    cases step with
    | exited code w0 => simp [Run.andThen] at h
    | returned w0 =>
      obtain ⟨hcwd, -, hdirs⟩ := dirStep_frame w w0 hstep
      have hwd : w0.workingDir = w.workingDir := by
        unfold World.workingDir; rw [hcwd]
      have hget : os.Getwd w0 = os.Getwd w := by
        unfold os.Getwd; rw [hwd, hdirs]
      rw [← hwd] at hd
      rw [← hget, ← hwd]
      simp only [Run.andThen, resumeCase, cli.ShowCommandHelpAndExit, console.Fatals] at h
      split at h
      · exact absurd h (by simp)
      split at h
      · exact absurd h (by simp)
      split at h
      · exact absurd h (by simp)
      split at h
      · exact absurd h (by simp)
      rename_i s hs
      split at h
      · exact absurd h (by simp)
      rename_i savedCwd hsaved
      have hsv : savedCwd = w0.workingDir ∧ os.Getwd w0 = Except.ok w0.workingDir := by
        have hsaved' := hsaved
        unfold os.Getwd at hsaved ⊢
        split at hsaved
        · rename_i hc
          injection hsaved with e
          exact ⟨e.symm, by rw [if_pos hc]⟩
        · exact absurd hsaved (by simp)
      obtain ⟨hsv, hgetok⟩ := hsv
      generalize hexec : sessionExecute doSync s
          (if s.Header.RootPath ≠ "" then (os.Chdir s.Header.RootPath w0).1 else w0) = ex at h
      cases ex with
      | exited code w2 => simp at h
      | returned w2 =>
        simp only at h
        split at h
        · exact absurd h (by simp)
        rename_i w3 hclose
        injection h with h
        subst h
        subst hsv
        obtain ⟨hne, hfix⟩ := resolvePath_fixed "/" w0.cwd w3.cwd
        have hwd0 : w0.workingDir = resolvePath "/" w0.cwd := rfl
        by_cases hc : w3.dirs.contains w0.workingDir = true
        · have hch : os.Chdir w0.workingDir w3
              = ({ w3 with cwd := w0.workingDir }, none) := by
            unfold os.Chdir
            rw [hwd0, hfix, if_pos ⟨hne, hwd0 ▸ hc⟩]
          rw [hch]
          refine ⟨rfl, ?_⟩
          rw [hgetok]
          have hfix2 := (resolvePath_fixed "/" w0.cwd "/").2
          unfold os.Getwd World.workingDir
          simp only
          rw [← hwd0] at hfix2 ⊢
          rw [hfix2, if_pos hc]
        · have hch : os.Chdir w0.workingDir w3
              = (w3, some (GoError.other "chdir: no such file or directory")) := by
            unfold os.Chdir
            rw [hwd0, hfix, if_neg (fun hh => hc (hwd0 ▸ hh.2))]
          rw [hch] at hd
          exact absurd hd hc
  · intro s savedCwd hsid hload hwd
    have hsess : isSession (TrimSpace sid) w = true := by
      unfold isSession getSessionIDs
      have hl := loadSessionV2_ok _ _ _ hload
      simpa using mem_keys_of_lookup _ _ _ hl
    constructor
    · intro code w2 hexec
      simp only [resumeCase, Args.Tail, Args.First, List.tail_cons, List.headD_cons,
        List.length_singleton, ne_eq, not_true_eq_false, if_false, hsid, hsess,
        Bool.not_true, Bool.false_eq_true, hload, hwd]
      rw [hexec]
      rfl
    · intro w2 w3 err hexec hclose
      simp only [resumeCase, Args.Tail, Args.First, List.tail_cons, List.headD_cons,
        List.length_singleton, ne_eq, not_true_eq_false, if_false, hsid, hsess,
        Bool.not_true, Bool.false_eq_true, hload, hwd]
      rw [hexec]
      simp only [Run.andThen, hclose, console.Fatals]

/-- Witness of C8 (amended): resuming the `sync` session `s2` from `/home/u`, on the
returning path and on the path where `Close` fails. -/
theorem resume_cwd_spec_witness :
    ((Run.world (runSessionCmd sampleSyncDriver ["resume", "s2"] sampleWorld)).cwd
        = sampleWorld.workingDir
      ∧ os.Getwd (Run.world (runSessionCmd sampleSyncDriver ["resume", "s2"] sampleWorld))
        = os.Getwd sampleWorld)
    ∧ resumeCase sampleSyncDriver ["resume", "s2"] { sampleWorld with undeletable := ["s2"] }
      = Run.exited 1
          { sampleWorld with
            cwd := "/data",
            undeletable := ["s2"],
            console := [ConsoleLine.info "sync s2",
                        ConsoleLine.fatals "Failed with" (GoError.other "CloseFailed")] } :=
  ⟨(resume_cwd_spec sampleSyncDriver "s2" sampleWorld).1
      (Run.world (runSessionCmd sampleSyncDriver ["resume", "s2"] sampleWorld))
      (by decide) (by decide),
   ((resume_cwd_spec sampleSyncDriver "s2" { sampleWorld with undeletable := ["s2"] }).2.1
      { SessionID := "s2", Header := { CommandType := "sync", RootPath := "/data" } }
      "/home/u" (by decide) rfl rfl).2
      { sampleWorld with
        cwd := "/data", undeletable := ["s2"], console := [ConsoleLine.info "sync s2"] }
      { sampleWorld with
        cwd := "/data", undeletable := ["s2"], console := [ConsoleLine.info "sync s2"] }
      (GoError.other "CloseFailed") (by decide) (by decide)⟩

/-- Looking up a key that is not among the keys of `pre` skips `pre`. -/
theorem lookup_append_skip {β : Type} (k : String) (pre l : List (String × β))
    (h : k ∉ pre.map Prod.fst) : (pre ++ l).lookup k = l.lookup k := by
  induction pre with
  | nil => rfl
  | cons p pre ih =>
    obtain ⟨a, b⟩ := p
    simp only [List.map_cons, List.mem_cons, not_or] at h
    have hka : (k == a) = false := by simpa using h.1
    simp only [List.cons_append, List.lookup_cons, hka]
    exact ih h.2

/-- Deleting the records keyed `k` leaves a list without that key as it is. -/
theorem filter_key_ne {β : Type} (k : String) (l : List (String × β))
    (h : k ∉ l.map Prod.fst) : l.filter (fun p => p.1 != k) = l := by
  rw [List.filter_eq_self]
  intro p hp
  have : p.1 ≠ k := fun e => h (e ▸ List.mem_map_of_mem Prod.fst hp)
  simpa using this

/-- The loop of `clearSession("all")` over a run of decodable records: each of them is
loaded and closed; those whose `Close` fails stay persisted, the others are deleted, and
the loop goes on with the ids that follow. -/
theorem clearAllLoop_run :
    ∀ (good pre rest : List (String × Option sessionV2Header)) (w : World)
      (ids : List String),
      w.sessions = pre ++ good ++ rest →
      ((pre ++ good ++ rest).map Prod.fst).Nodup →
      (∀ p ∈ good, p.2.isSome = true) →
      clearAllLoop (good.map Prod.fst ++ ids) w
        = clearAllLoop ids
            { w with sessions :=
                pre ++ good.filter (fun p => w.undeletable.contains p.1) ++ rest } := by
  intro good
  induction good with
  | nil =>
    intro pre rest w ids hw _ _
    simp only [List.map_nil, List.nil_append, List.filter_nil, List.append_nil]
    rw [← List.append_nil pre, ← hw]
  | cons g good ih =>
    intro pre rest w ids hw hnd hgood
    obtain ⟨sid, rec⟩ := g
    have hsome := hgood (sid, rec) (List.mem_cons_self _ _)
    obtain ⟨header, rfl⟩ := Option.isSome_iff_exists.mp hsome
    have hgood' : ∀ p ∈ good, p.2.isSome = true :=
      fun p hp => hgood p (List.mem_cons_of_mem _ hp)
    -- the key `sid` occurs nowhere else
    have hnd' := hnd
    simp only [List.map_append, List.map_cons, List.append_assoc, List.cons_append] at hnd'
    rw [List.nodup_append] at hnd'
    obtain ⟨hpre, htail, hdisj⟩ := hnd'
    have hsid_pre : sid ∉ pre.map Prod.fst := fun hmem =>
      hdisj hmem (List.mem_cons_self _ _)
    have hsid_tail : sid ∉ good.map Prod.fst ++ rest.map Prod.fst :=
      (List.nodup_cons.mp htail).1
    -- loading the session
    have hload : loadSessionV2 sid w = Except.ok { SessionID := sid, Header := header } := by
      unfold loadSessionV2
      rw [hw]
      simp only [List.append_assoc, List.cons_append]
      rw [lookup_append_skip sid pre _ hsid_pre]
      simp [List.lookup_cons]
    have hstep : clearAllLoop (sid :: (good.map Prod.fst ++ ids)) w
        = clearAllLoop (good.map Prod.fst ++ ids)
            (sessionV2.Close { SessionID := sid, Header := header } w).1 := by
      simp only [clearAllLoop, hload]
    rw [List.map_cons, List.cons_append, hstep]
    by_cases hu : w.undeletable.contains sid = true
    · -- `Close` fails: the record stays
      have hclose : (sessionV2.Close { SessionID := sid, Header := header } w).1 = w := by
        unfold sessionV2.Close
        rw [if_pos hu]
      rw [hclose]
      have := ih (pre ++ [(sid, some header)]) rest w ids
        (by rw [hw]; simp) (by simpa using hnd) hgood'
      rw [this]
      have hu' : sid ∈ w.undeletable := by simpa using hu
      simp [List.filter_cons, hu']
    · -- `Close` succeeds: the record is deleted
      have hkeep : (pre ++ (sid, some header) :: good ++ rest).filter (fun p => p.1 != sid)
          = pre ++ good ++ rest := by
        have h1 := filter_key_ne sid pre hsid_pre
        have h2 : (good ++ rest).filter (fun p => p.1 != sid) = good ++ rest :=
          filter_key_ne sid (good ++ rest) (by simpa using hsid_tail)
        simp only [List.append_assoc, List.cons_append, List.filter_append, List.filter_cons,
          h1, bne_self_eq_false, Bool.false_eq_true, if_false]
        rw [← List.filter_append, h2]
      have hclose : (sessionV2.Close { SessionID := sid, Header := header } w).1
          = { w with sessions := pre ++ good ++ rest } := by
        unfold sessionV2.Close
        rw [if_neg hu, hw]
        simp only [hkeep]
      rw [hclose]
      have hnd2 : ((pre ++ good ++ rest).map Prod.fst).Nodup := by
        simp only [List.map_append, List.append_assoc]
        rw [List.nodup_append]
        refine ⟨hpre, (List.nodup_cons.mp htail).2, ?_⟩
        intro a ha hb
        exact hdisj ha (List.mem_cons_of_mem _ hb)
      have := ih pre rest { w with sessions := pre ++ good ++ rest } ids rfl hnd2 hgood'
      rw [this]
      have hu' : sid ∉ w.undeletable := by simpa using hu
      simp [List.filter_cons, hu']

/-- C7 (counterexample). Three persisted sessions `a`, `b`, `c` of which `b` fails to
load: `clearSession("all")` closes `a`, reports the failure of `b` with `console.Fatalf`
and the process exits; the session `c` is never attempted and stays persisted.  And when
instead the `Close` of `s1` fails, the batch goes on but nothing is reported. -/
theorem clearSession_all_aborts :
    clearSession "all" corruptWorld
      = Run.exited 1
          { corruptWorld with
            sessions := [("b", none), ("c", some { CommandType := "sync", RootPath := "/data" })],
            console := [ConsoleLine.fatalf "Unable to load session ‘%s’, %s" "b"
                          (some (GoError.other "SessionCorrupt"))] }
    ∧ clearSession "all" { sampleWorld with undeletable := ["s1"] }
      = Run.returned
          { sampleWorld with
            undeletable := ["s1"],
            sessions := [("s1", some { CommandType := "cp", RootPath := "/data" })],
            console := [] } := by
  decide

/-- C7 (amended). For persisted sessions with distinct ids: if every record loads,
`clearSession("all")` calls `Close` on every session in turn and returns, going on past
a `Close` that fails, so that exactly the sessions whose `Close` fails stay persisted;
if the record of session `k` is the first that fails to load, the sessions before `k`
are closed in the same way, the load failure is reported with `console.Fatalf`, and the
process exits with status 1 without attempting the sessions after `k`. -/
theorem clearSession_all_spec (w : World) (hnd : (getSessionIDs w).Nodup) :
    ((∀ p ∈ w.sessions, p.2.isSome = true) →
        ∃ w', clearSession "all" w = Run.returned w'
          ∧ w'.sessions = w.sessions.filter (fun p => w.undeletable.contains p.1))
      ∧ (∀ (good post : List (String × Option sessionV2Header)) (k : String),
          w.sessions = good ++ (k, none) :: post →
          (∀ p ∈ good, p.2.isSome = true) →
          clearSession "all" w
            = Run.exited 1
                { w with
                  sessions :=
                    good.filter (fun p => w.undeletable.contains p.1) ++ (k, none) :: post,
                  console := w.console ++
                    [ConsoleLine.fatalf "Unable to load session ‘%s’, %s" k
                      (some (GoError.other "SessionCorrupt"))] }) := by
  constructor
  · intro hall
    refine ⟨{ w with sessions := w.sessions.filter (fun p => w.undeletable.contains p.1) },
      ?_, rfl⟩
    have h := clearAllLoop_run w.sessions [] [] w [] (by simp)
      (by simpa [getSessionIDs] using hnd) hall
    simp only [List.append_nil, List.nil_append] at h
    simp only [clearSession, if_true, getSessionIDs, h, clearAllLoop]
  · intro good post k hw hgood
    have hnd' : ((([] : List (String × Option sessionV2Header)) ++ good
        ++ (k, none) :: post).map Prod.fst).Nodup := by
      simpa [getSessionIDs, hw] using hnd
    have h := clearAllLoop_run good [] ((k, none) :: post) w
      (k :: post.map Prod.fst) (by simpa using hw) hnd' hgood
    have hids : getSessionIDs w = good.map Prod.fst ++ k :: post.map Prod.fst := by
      simp [getSessionIDs, hw]
    simp only [clearSession, if_true, hids, h, List.nil_append]
    -- the key `k` is not among the sessions that stayed
    have hk : k ∉ (good.filter (fun p => w.undeletable.contains p.1)).map Prod.fst := by
      intro hmem
      obtain ⟨p, hp, hpk⟩ := List.mem_map.mp hmem
      have hpg : p ∈ good := (List.mem_filter.mp hp).1
      simp only [List.nil_append, List.map_append, List.map_cons] at hnd'
      rw [List.nodup_append] at hnd'
      exact hnd'.2.2 (List.mem_map_of_mem Prod.fst hpg) (hpk ▸ List.mem_cons_self _ _)
    have hload : loadSessionV2 k
        { w with sessions :=
            good.filter (fun p => w.undeletable.contains p.1) ++ (k, none) :: post }
        = Except.error (GoError.other "SessionCorrupt") := by
      unfold loadSessionV2
      simp only
      rw [lookup_append_skip k _ _ hk]
      simp [List.lookup_cons]
    simp only [clearAllLoop, hload, console.Fatalf]

/-- Witness of C7 (amended): the batch over `s1` and `s2` when the `Close` of `s1` fails,
and the batch over `a`, `b`, `c` when `b` fails to load. -/
theorem clearSession_all_spec_witness :
    (∃ w', clearSession "all" { sampleWorld with undeletable := ["s1"] } = Run.returned w'
        ∧ w'.sessions = [("s1", some { CommandType := "cp", RootPath := "/data" })])
      ∧ clearSession "all" corruptWorld
        = Run.exited 1
            { corruptWorld with
              sessions := [("b", none),
                           ("c", some { CommandType := "sync", RootPath := "/data" })],
              console := [ConsoleLine.fatalf "Unable to load session ‘%s’, %s" "b"
                            (some (GoError.other "SessionCorrupt"))] } :=
  ⟨(clearSession_all_spec { sampleWorld with undeletable := ["s1"] } (by decide)).1
      (by decide),
   (clearSession_all_spec corruptWorld (by decide)).2
      [("a", some { CommandType := "cp", RootPath := "/data" })]
      [("c", some { CommandType := "sync", RootPath := "/data" })] "b" rfl (by decide)⟩

end Session

/-! ## Theorems: `pkg/s3/client.go` -/

section S3

/-- An alternation of single characters matches exactly the one-character strings of its
characters. -/
theorem foldr_char_rmatch (l x : List Nat) :
    (l.foldr (fun c acc => RegularExpression.char c + acc) 0).rmatch x = true
      ↔ ∃ c ∈ l, x = [c] := by
  induction l with
  | nil => simp
  | cons a l ih =>
    simp only [List.foldr_cons]
    rw [RegularExpression.add_rmatch_iff, RegularExpression.char_rmatch_iff, ih]
    simp

/-- A character class matches exactly the one-character strings whose character lies in
one of its ranges. -/
theorem charClass_rmatch (ranges : List (Nat × Nat)) (x : List Nat) :
    (charClass ranges).rmatch x = true
      ↔ ∃ c, x = [c] ∧ ∃ r ∈ ranges, r.1 ≤ c ∧ c ≤ r.2 := by
  unfold charClass
  rw [foldr_char_rmatch]
  constructor
  · rintro ⟨c, hc, rfl⟩
    obtain ⟨r, hr, hcr⟩ := List.mem_flatMap.mp hc
    rw [List.mem_range'_1] at hcr
    exact ⟨c, rfl, r, hr, hcr.1, by omega⟩
  · rintro ⟨c, rfl, r, hr, h1, h2⟩
    exact ⟨c, List.mem_flatMap.mpr ⟨r, hr, List.mem_range'_1.mpr ⟨h1, by omega⟩⟩, rfl⟩

/-- The star of a character class matches exactly the strings all of whose characters
lie in the class. -/
theorem star_charClass_rmatch (ranges : List (Nat × Nat)) (x : List Nat) :
    (RegularExpression.star (charClass ranges)).rmatch x = true
      ↔ ∀ c ∈ x, ∃ r ∈ ranges, r.1 ≤ c ∧ c ≤ r.2 := by
  rw [RegularExpression.star_rmatch_iff]
  constructor
  · rintro ⟨S, rfl, hS⟩ c hc
    obtain ⟨t, ht, hct⟩ := List.mem_flatten.mp hc
    obtain ⟨c', rfl, hr⟩ := (charClass_rmatch ranges t).mp (hS t ht).2
    rw [List.mem_singleton] at hct
    exact hct ▸ hr
  · intro hx
    refine ⟨x.map (fun c => [c]), ?_, ?_⟩
    · clear hx
      induction x with
      | nil => rfl
      | cons a x ih => simp only [List.map_cons, List.flatten_cons, List.singleton_append]; rw [← ih]
    · intro t ht
      obtain ⟨c, hc, rfl⟩ := List.mem_map.mp ht
      exact ⟨by simp, (charClass_rmatch ranges [c]).mpr ⟨c, rfl, hx c hc⟩⟩

theorem letterClass_iff (c : Nat) :
    (∃ r ∈ [((97 : Nat), (122 : Nat)), (65, 90)], r.1 ≤ c ∧ c ≤ r.2) ↔ isAsciiLetter c := by
  simp [isAsciiLetter]

theorem middleClass_iff (c : Nat) :
    (∃ r ∈ [((97 : Nat), (122 : Nat)), (65, 90), (48, 57), (45, 45)], r.1 ≤ c ∧ c ≤ r.2)
      ↔ isBucketMiddle c := by
  simp only [isBucketMiddle, isAsciiLetter, isAsciiDigit, List.mem_cons, List.mem_singleton,
    List.not_mem_nil, or_false, exists_eq_or_imp, exists_eq_left]
  constructor
  · rintro (h | h | h | h)
    · exact Or.inl (Or.inl h)
    · exact Or.inl (Or.inr h)
    · exact Or.inr (Or.inl h)
    · exact Or.inr (Or.inr (by omega))
  · rintro ((h | h) | h | h)
    · exact Or.inl h
    · exact Or.inr (Or.inl h)
    · exact Or.inr (Or.inr (Or.inl h))
    · exact Or.inr (Or.inr (Or.inr (by omega)))

theorem alnumClass_iff (c : Nat) :
    (∃ r ∈ [((97 : Nat), (122 : Nat)), (65, 90), (48, 57)], r.1 ≤ c ∧ c ≤ r.2)
      ↔ (isAsciiLetter c ∨ isAsciiDigit c) := by
  simp only [isAsciiLetter, isAsciiDigit, List.mem_cons, List.mem_singleton,
    List.not_mem_nil, or_false, exists_eq_or_imp, exists_eq_left]
  tauto

/-- The body of the bucket pattern matches exactly the strings made of a letter, one or
more middle bytes, and a final letter or digit. -/
theorem bucketPattern_rmatch (x : List Nat) :
    bucketPattern.body.rmatch x = true
      ↔ ∃ a m d, x = a :: (m ++ [d]) ∧ isAsciiLetter a ∧ m ≠ []
          ∧ (∀ y ∈ m, isBucketMiddle y) ∧ (isAsciiLetter d ∨ isAsciiDigit d) := by
  unfold bucketPattern
  simp only
  constructor
  · intro h
    obtain ⟨t, u, rfl, ht, hu⟩ := (RegularExpression.mul_rmatch_iff _ _ _).mp h
    obtain ⟨t1, u1, rfl, ht1, hu1⟩ := (RegularExpression.mul_rmatch_iff _ _ _).mp ht
    obtain ⟨t2, u2, rfl, ht2, hu2⟩ := (RegularExpression.mul_rmatch_iff _ _ _).mp hu1
    obtain ⟨a, rfl, ha⟩ := (charClass_rmatch _ _).mp ht1
    obtain ⟨c, rfl, hc⟩ := (charClass_rmatch _ _).mp ht2
    obtain ⟨d, rfl, hd⟩ := (charClass_rmatch _ _).mp hu
    have hu2' := (star_charClass_rmatch _ _).mp hu2
    refine ⟨a, c :: u2, d, by simp, (letterClass_iff a).mp ha, by simp, ?_,
      (alnumClass_iff d).mp hd⟩
    intro y hy
    rcases List.mem_cons.mp hy with rfl | hy
    · exact (middleClass_iff _).mp hc
    · exact (middleClass_iff y).mp (hu2' y hy)
  · rintro ⟨a, m, d, rfl, ha, hm, hmid, hd⟩
    obtain ⟨c, u2, rfl⟩ := List.exists_cons_of_ne_nil hm
    refine (RegularExpression.mul_rmatch_iff _ _ _).mpr ⟨a :: c :: u2, [d], by simp, ?_, ?_⟩
    · refine (RegularExpression.mul_rmatch_iff _ _ _).mpr ⟨[a], c :: u2, by simp, ?_, ?_⟩
      · exact (charClass_rmatch _ _).mpr ⟨a, rfl, (letterClass_iff a).mpr ha⟩
      · refine (RegularExpression.mul_rmatch_iff _ _ _).mpr ⟨[c], u2, by simp, ?_, ?_⟩
        · exact (charClass_rmatch _ _).mpr
            ⟨c, rfl, (middleClass_iff c).mpr (hmid c (List.mem_cons_self _ _))⟩
        · exact (star_charClass_rmatch _ _).mpr
            (fun y hy => (middleClass_iff y).mpr (hmid y (List.mem_cons_of_mem _ hy)))
    · exact (charClass_rmatch _ _).mpr ⟨d, rfl, (alnumClass_iff d).mpr hd⟩

/-- A string in which the pattern `\.\.` is found contains a dot. -/
theorem dotDot_mem (b : List Nat) (h : regexp.MatchString dotDotPattern b = true) :
    46 ∈ b := by
  simp only [regexp.MatchString, dotDotPattern, Bool.false_eq_true, if_false,
    List.any_eq_true, List.mem_tails, List.mem_inits] at h
  obtain ⟨t, ht, u, hu, hm⟩ := h
  obtain ⟨p, q, rfl, hp, -⟩ := (RegularExpression.mul_rmatch_iff _ _ _).mp hm
  rw [RegularExpression.char_rmatch_iff] at hp
  subst hp
  exact ht.subset (hu.subset (by simp))

theorem not_letter_dot : ¬ isAsciiLetter 46 := by
  unfold isAsciiLetter; omega

theorem not_digit_dot : ¬ isAsciiDigit 46 := by
  unfold isAsciiDigit; omega

theorem not_middle_dot : ¬ isBucketMiddle 46 := by
  unfold isBucketMiddle isAsciiLetter isAsciiDigit; omega

/-- The shape of a string made of a first byte, a non-empty middle and a last byte, read
off its head, its last element and what lies between. -/
theorem shape_iff (b : List Nat) (P Q R : Nat → Prop) :
    (∃ a m d, b = a :: (m ++ [d]) ∧ P a ∧ m ≠ [] ∧ (∀ y ∈ m, Q y) ∧ R d)
      ↔ 3 ≤ b.length ∧ (∃ a, b.head? = some a ∧ P a) ∧ (∃ d, b.getLast? = some d ∧ R d)
          ∧ ∀ y ∈ b.tail.dropLast, Q y := by
  constructor
  · rintro ⟨a, m, d, rfl, ha, hm, hmid, hd⟩
    obtain ⟨c, m', rfl⟩ := List.exists_cons_of_ne_nil hm
    refine ⟨by simp, ⟨a, rfl, ha⟩, ⟨d, ?_, hd⟩, ?_⟩
    · rw [← List.cons_append, List.getLast?_concat]
    · rw [List.tail_cons, List.dropLast_concat]
      exact hmid
  · rintro ⟨hlen, ⟨a, ha, hPa⟩, ⟨d, hd, hRd⟩, hmid⟩
    cases b with
    | nil => simp at hlen
    | cons a' t =>
      simp only [List.head?_cons, Option.some.injEq] at ha
      subst ha
      simp only [List.length_cons] at hlen
      have ht : t ≠ [] := by
        intro h; subst h; simp at hlen
      obtain ⟨c, t', rfl⟩ := List.exists_cons_of_ne_nil ht
      rw [List.getLast?_cons_cons] at hd
      have hsplit := List.dropLast_append_getLast? d hd
      refine ⟨a', (c :: t').dropLast, d, by rw [hsplit], hPa, ?_, ?_, hRd⟩
      · intro h
        have hl := congrArg List.length hsplit
        rw [h] at hl
        simp only [List.nil_append, List.length_singleton, List.length_cons,
          List.length_nil] at hl hlen
        omega
      · simpa using hmid

/-- The function `IsValidBucket` accepts exactly the strings of at most 63 bytes made of a
letter, one or more middle bytes, and a final letter or digit. -/
theorem IsValidBucket_shape (b : List Nat) :
    IsValidBucket b = true
      ↔ b.length ≤ 63 ∧ ∃ a m d, b = a :: (m ++ [d]) ∧ isAsciiLetter a ∧ m ≠ []
          ∧ (∀ y ∈ m, isBucketMiddle y) ∧ (isAsciiLetter d ∨ isAsciiDigit d) := by
  have hbody : regexp.MatchString bucketPattern b = bucketPattern.body.rmatch b := by
    simp [regexp.MatchString, bucketPattern]
  constructor
  · intro h
    unfold IsValidBucket at h
    split at h
    · exact absurd h (by simp)
    rename_i hlen
    split at h
    · exact absurd h (by simp)
    split at h
    · exact absurd h (by simp)
    rw [hbody] at h
    simp only [Bool.or_eq_true, decide_eq_true_eq, not_or, not_lt] at hlen
    exact ⟨hlen.2, (bucketPattern_rmatch b).mp h⟩
  · rintro ⟨hlen, hshape⟩
    have hm := (bucketPattern_rmatch b).mpr hshape
    obtain ⟨a, m, d, rfl, ha, hne, hmid, hd⟩ := hshape
    obtain ⟨c, m', rfl⟩ := List.exists_cons_of_ne_nil hne
    have hnodot : (46 : Nat) ∉ a :: (c :: m' ++ [d]) := by
      intro hmem
      simp only [List.mem_cons, List.mem_append, List.mem_singleton, List.cons_append,
        List.not_mem_nil, or_false] at hmem
      rcases hmem with h | h | h | h
      · exact not_letter_dot (h ▸ ha)
      · exact not_middle_dot (h ▸ hmid c (List.mem_cons_self _ _))
      · exact not_middle_dot (hmid 46 (List.mem_cons_of_mem _ h))
      · rcases hd with hd | hd
        · exact not_letter_dot (h ▸ hd)
        · exact not_digit_dot (h ▸ hd)
    have h3 : 3 ≤ (a :: (c :: m' ++ [d])).length := by simp
    have hfirst : (a :: (c :: m' ++ [d]))[0]? ≠ some 46 := by
      intro h
      simp only [List.getElem?_cons_zero, Option.some.injEq] at h
      exact not_letter_dot (h ▸ ha)
    have hlast : (a :: (c :: m' ++ [d]))[(a :: (c :: m' ++ [d])).length - 1]? ≠ some 46 := by
      rw [← List.getLast?_eq_getElem?, ← List.cons_append, List.getLast?_concat]
      intro h
      simp only [Option.some.injEq] at h
      rcases hd with hd | hd
      · exact not_letter_dot (h ▸ hd)
      · exact not_digit_dot (h ▸ hd)
    have hdd : regexp.MatchString dotDotPattern (a :: (c :: m' ++ [d])) = false := by
      cases hq : regexp.MatchString dotDotPattern (a :: (c :: m' ++ [d])) with
      | false => rfl
      | true => exact absurd (dotDot_mem _ hq) hnodot
    unfold IsValidBucket
    rw [if_neg (by
      simp only [Bool.or_eq_true, decide_eq_true_eq, not_or, not_lt]
      exact ⟨h3, hlen⟩)]
    rw [if_neg (by
      simp only [Bool.or_eq_true, beq_iff_eq, not_or]
      exact ⟨hfirst, hlast⟩)]
    rw [hdd, hbody]
    simpa using hm

/-- C9. `IsValidBucket(b)` is true exactly when `b` is 3 to 63 bytes long, its first
byte is an ASCII letter, its last byte is an ASCII letter or digit, and every byte in
between is an ASCII letter, digit or hyphen.  In particular it is false for every name
that contains a dot, is shorter than 3 bytes or is longer than 63 bytes. -/
theorem IsValidBucket_iff (b : List Nat) :
    (IsValidBucket b = true
      ↔ 3 ≤ b.length ∧ b.length ≤ 63
          ∧ (∃ a, b.head? = some a ∧ isAsciiLetter a)
          ∧ (∃ d, b.getLast? = some d ∧ (isAsciiLetter d ∨ isAsciiDigit d))
          ∧ ∀ y ∈ b.tail.dropLast, isAsciiLetter y ∨ isAsciiDigit y ∨ y = 45)
      ∧ (46 ∈ b → IsValidBucket b = false)
      ∧ (b.length < 3 → IsValidBucket b = false)
      ∧ (63 < b.length → IsValidBucket b = false) := by
  have key := (IsValidBucket_shape b).trans
    (and_congr_right fun _ => shape_iff b isAsciiLetter isBucketMiddle
      (fun d => isAsciiLetter d ∨ isAsciiDigit d))
  refine ⟨?_, ?_, ?_, ?_⟩
  · constructor
    · intro h
      obtain ⟨h63, h3, ha, hd, hm⟩ := key.mp h
      exact ⟨h3, h63, ha, hd, hm⟩
    · rintro ⟨h3, h63, ha, hd, hm⟩
      exact key.mpr ⟨h63, h3, ha, hd, hm⟩
  · intro hdot
    cases hv : IsValidBucket b with
    | false => rfl
    | true =>
      exfalso
      obtain ⟨-, a, m, d, rfl, ha, -, hmid, hd⟩ := (IsValidBucket_shape b).mp hv
      simp only [List.mem_cons, List.mem_append, List.mem_singleton, List.not_mem_nil,
        or_false] at hdot
      rcases hdot with h | h | h
      · exact not_letter_dot (h ▸ ha)
      · exact not_middle_dot (hmid 46 h)
      · rcases hd with hd | hd
        · exact not_letter_dot (h ▸ hd)
        · exact not_digit_dot (h ▸ hd)
  · intro hlt
    cases hv : IsValidBucket b with
    | false => rfl
    | true => have := (key.mp hv).2.1; omega
  · intro hgt
    cases hv : IsValidBucket b with
    | false => rfl
    | true => have := (key.mp hv).1; omega

/-- Witness of C9: one accepted name, one with a dot, one too short and one too long. -/
theorem IsValidBucket_iff_witness :
    IsValidBucket (ascii "my-bucket-01") = true
      ∧ IsValidBucket (ascii "my.bucket") = false
      ∧ IsValidBucket (ascii "ab") = false
      ∧ IsValidBucket (List.replicate 64 97) = false :=
  ⟨(IsValidBucket_iff (ascii "my-bucket-01")).1.mpr (by
      refine ⟨by decide, by decide, ⟨109, by decide, by unfold isAsciiLetter; omega⟩,
        ⟨49, by decide, Or.inr (by unfold isAsciiDigit; omega)⟩, ?_⟩
      intro y hy
      have hy' : y ∈ [121, 45, 98, 117, 99, 107, 101, 116, 45, 48] := hy
      simp only [List.mem_cons, List.mem_singleton, List.not_mem_nil, or_false] at hy'
      unfold isAsciiLetter isAsciiDigit
      omega),
   (IsValidBucket_iff (ascii "my.bucket")).2.1 (by decide),
   (IsValidBucket_iff (ascii "ab")).2.2.1 (by decide),
   (IsValidBucket_iff (List.replicate 64 97)).2.2.2 (by decide)⟩

/-- A name accepted by `IsValidBucket` contains no dot, and its last byte is not a
slash. -/
theorem IsValidBucket_no_dot (b : List Nat) (hv : IsValidBucket b = true) :
    strings.Contains b (ascii ".") = false ∧ b.getLast? ≠ some 47 := by
  obtain ⟨-, a, m, d, rfl, ha, -, hmid, hd⟩ := (IsValidBucket_shape b).mp hv
  constructor
  · have hdot : ascii "." = [46] := by decide
    rw [hdot]
    unfold strings.Contains
    rw [decide_eq_false_iff_not]
    intro hin
    have hmem : (46 : Nat) ∈ a :: (m ++ [d]) := hin.subset (List.mem_singleton_self 46)
    simp only [List.mem_cons, List.mem_append, List.mem_singleton, List.not_mem_nil,
      or_false] at hmem
    rcases hmem with h | h | h
    · exact not_letter_dot (h ▸ ha)
    · exact not_middle_dot (hmid 46 h)
    · rcases hd with hd | hd
      · exact not_letter_dot (h ▸ hd)
      · exact not_digit_dot (h ▸ hd)
  · rw [← List.cons_append, List.getLast?_concat]
    intro h
    simp only [Option.some.injEq] at h
    subst h
    unfold isAsciiLetter isAsciiDigit at hd
    omega

/-- For a bucket name accepted by `IsValidBucket` and a path-style host (one that
contains `localhost` or `127.0.0.1`, or whose host part is an IP address) `bucketURL`
returns `scheme://host/bucket`, whose last byte is the last byte of the bucket name and
not a slash; for every other host it returns `scheme://bucket.host/`. -/
theorem bucketURL_valid (SplitHostPort : List Nat → List Nat) (ParseIP : List Nat → Bool)
    (c : s3Client) (bucket : List Nat) (hv : IsValidBucket bucket = true) :
    ((strings.Contains c.URL.Host (ascii "localhost") = true
          ∨ strings.Contains c.URL.Host (ascii "127.0.0.1") = true
          ∨ ParseIP (SplitHostPort c.URL.Host) = true) →
        c.bucketURL SplitHostPort ParseIP bucket
            = c.URL.Scheme ++ ascii "://" ++ c.URL.Host ++ ascii "/" ++ bucket
          ∧ (c.bucketURL SplitHostPort ParseIP bucket).getLast? ≠ some 47)
      ∧ (¬ (strings.Contains c.URL.Host (ascii "localhost") = true
          ∨ strings.Contains c.URL.Host (ascii "127.0.0.1") = true
          ∨ ParseIP (SplitHostPort c.URL.Host) = true) →
        c.bucketURL SplitHostPort ParseIP bucket
            = c.URL.Scheme ++ ascii "://" ++ bucket ++ ascii "." ++ c.URL.Host ++ ascii "/"
          ∧ (c.bucketURL SplitHostPort ParseIP bucket).getLast? = some 47) := by
  obtain ⟨hnd, hlast⟩ := IsValidBucket_no_dot bucket hv
  have hne : bucket ≠ [] := by
    intro h; subst h; exact absurd hv (by decide)
  constructor
  · intro hp
    have heq : c.bucketURL SplitHostPort ParseIP bucket
        = c.URL.Scheme ++ ascii "://" ++ c.URL.Host ++ ascii "/" ++ bucket := by
      unfold s3Client.bucketURL
      simp only [hv, hnd, Bool.not_false, Bool.and_self, if_true]
      rcases hp with h | h | h
      · simp [h]
      · simp [h]
      · simp [h]
    refine ⟨heq, ?_⟩
    rw [heq, List.getLast?_append]
    cases hb : bucket.getLast? with
    | none => exact absurd (List.getLast?_eq_none_iff.mp hb) hne
    | some x =>
      rw [hb] at hlast
      simpa using hlast
  · intro hp
    simp only [not_or, Bool.not_eq_true] at hp
    have heq : c.bucketURL SplitHostPort ParseIP bucket
        = c.URL.Scheme ++ ascii "://" ++ bucket ++ ascii "." ++ c.URL.Host ++ ascii "/" := by
      unfold s3Client.bucketURL
      simp [hv, hnd, hp.1, hp.2.1, hp.2.2]
    refine ⟨heq, ?_⟩
    rw [heq]
    have hs : ascii "/" = [47] := by decide
    rw [hs, List.getLast?_concat]

/-- C10 (evaluation at the failing input). For the client URL `http://localhost:9000` and
the valid bucket name `mybucket`, `bucketURL` returns `http://localhost:9000/mybucket`,
which does not end with a slash. -/
theorem bucketURL_localhost_eval (SplitHostPort : List Nat → List Nat)
    (ParseIP : List Nat → Bool) :
    IsValidBucket (ascii "mybucket") = true
      ∧ s3Client.bucketURL SplitHostPort ParseIP
          { URL := { Scheme := ascii "http", Host := ascii "localhost:9000" } }
          (ascii "mybucket")
        = ascii "http://localhost:9000/mybucket"
      ∧ (s3Client.bucketURL SplitHostPort ParseIP
          { URL := { Scheme := ascii "http", Host := ascii "localhost:9000" } }
          (ascii "mybucket")).getLast? ≠ some 47 := by
  have hv : IsValidBucket (ascii "mybucket") = true := by decide
  have hd : strings.Contains (ascii "mybucket") (ascii ".") = false := by decide
  have hl : strings.Contains (ascii "localhost:9000") (ascii "localhost") = true := by decide
  have heq : s3Client.bucketURL SplitHostPort ParseIP
      { URL := { Scheme := ascii "http", Host := ascii "localhost:9000" } }
      (ascii "mybucket") = ascii "http://localhost:9000/mybucket" := by
    unfold s3Client.bucketURL
    simp only [hv, hd, hl, Bool.not_false, Bool.and_self, Bool.true_or, if_true]
    decide
  refine ⟨hv, heq, ?_⟩
  rw [heq]
  decide

end S3

end Mc
